import Mathlib

/-!
# go-onvif: device operations and scalar coercion

A shallow embedding of `utils.go` and `device.go` of package `onvif`.

Conventions of the embedding.

* A Go `string` is a Lean `String`.  The strings handled here come out of an XML
  decoder and are valid UTF-8, so a Go string is determined by its sequence of
  code points.  Where the Go code works on bytes (`strconv.Atoi`) the embedding
  works on the UTF-8 bytes of the string (`goBytes`).
* A Go `interface{}` is a `Value`.
* A Go `map[string]T` is an association list with `mapIndex` / `mapSet` as
  `m[k]` / `m[k] = v`; a `range` over a map visits the list in list order, and
  the list order stands for whatever order the Go runtime happens to pick.
* A Go result pair `(T, error)` is `T × Option Error`, `none` being the nil
  error.
* The platform constant `strconv.IntSize` and the Unicode case table are fields
  of `Platform`; the transport and the path navigator, which live outside
  `utils.go` and `device.go`, are fields of `Collaborators`.
-/

namespace Onvif

/-! ## Data model -/

/-- A dynamically typed Go value (`interface{}`) as it appears in a decoded
response: the nil interface, a string, a `map[string]interface{}`, a
`[]interface{}`, a `[]string`, and the two non-string scalars `bool` and a
number. -/
inductive Value where
  | nil : Value
  | str : String → Value
  | map : List (String × Value) → Value
  | seq : List Value → Value
  | strs : List String → Value
  | bool : Bool → Value
  | num : Int → Value

instance : Inhabited Value := ⟨Value.nil⟩

/-- Go errors that the operations pass along. -/
inductive Error where
  | PathNotFound : Error
  | Transport : String → Error
  deriving DecidableEq, Repr

/-- Platform facts used by the Go standard library: the width of `int` and the
lower-case mapping of `unicode.ToLower` on runes above `MaxASCII`. -/
structure Platform where
  IntSize : Nat
  unicodeToLower : Char → Char

/-- Index expression `m[k]` on a `map[string]interface{}`: the nil interface when the key
is missing. -/
def mapIndex (m : List (String × Value)) (k : String) : Value :=
  match m with
  | [] => Value.nil
  | (k', v) :: rest => if k' = k then v else mapIndex rest k

/-- Assignment `m[k] = v` on a Go map. -/
def mapSet {β : Type} (m : List (String × β)) (k : String) (v : β) : List (String × β) :=
  match m with
  | [] => [(k, v)]
  | (k', v') :: rest => if k' = k then (k', v) :: rest else (k', v') :: mapSet rest k v

/-- Lookup `v, ok := m[k]` on a Go map. -/
def mapGet {β : Type} (m : List (String × β)) (k : String) : Option β :=
  match m with
  | [] => none
  | (k', v) :: rest => if k' = k then some v else mapGet rest k

/-! ## Strings -/

/-- UTF-8 encoding of one code point, as a list of bytes. -/
def utf8Bytes (c : Char) : List Nat :=
  let n := c.toNat
  if n < 0x80 then [n]
  else if n < 0x800 then [0xC0 + n / 64, 0x80 + n % 64]
  else if n < 0x10000 then [0xE0 + n / 4096, 0x80 + (n / 64) % 64, 0x80 + n % 64]
  else [0xF0 + n / 262144, 0x80 + (n / 4096) % 64, 0x80 + (n / 64) % 64, 0x80 + n % 64]

/-- The bytes of a list of code points. -/
def charsBytes : List Char → List Nat
  | [] => []
  | c :: cs => utf8Bytes c ++ charsBytes cs

/-- The bytes of a Go string: `[]byte(s)`. -/
def goBytes (s : String) : List Nat := charsBytes s.data

/-- Rune mapping `unicode.ToLower`: ASCII is handled inline, the rest by the case table. -/
def runeToLower (p : Platform) (c : Char) : Char :=
  if c.toNat ≤ 0x7F then
    if 'A'.toNat ≤ c.toNat ∧ c.toNat ≤ 'Z'.toNat then Char.ofNat (c.toNat + 32) else c
  else p.unicodeToLower c

/-- Byte mapping of the ASCII branch of `strings.ToLower`. -/
def asciiToLower (c : Char) : Char :=
  if 'A'.toNat ≤ c.toNat ∧ c.toNat ≤ 'Z'.toNat then Char.ofNat (c.toNat + 32) else c

/-- Library function `strings.ToLower`: the ASCII-only branch maps `A`..`Z` (and returns `s` itself
when there is nothing to map), the general branch is `strings.Map(unicode.ToLower, s)`. -/
def ToLower (p : Platform) (s : String) : String :=
  let isASCII := s.data.all (fun c => decide (c.toNat < 0x80))
  let hasUpper := s.data.any (fun c => decide ('A'.toNat ≤ c.toNat ∧ c.toNat ≤ 'Z'.toNat))
  if isASCII then
    if !hasUpper then s else String.mk (s.data.map asciiToLower)
  else String.mk (s.data.map (runeToLower p))

/-- Replacement loop of `strings.Replace` for a non-empty `old`: scans left to right, replaces
each leftmost non-overlapping occurrence while the budget `lim` lasts (`none` is no limit);
`skip` counts the characters of a matched occurrence still to be dropped. -/
def replaceLoop (old new : List Char) : Option Nat → Nat → List Char → List Char
  | _, _, [] => []
  | lim, skip + 1, _ :: cs => replaceLoop old new lim skip cs
  | lim, 0, c :: cs =>
    if lim ≠ some 0 ∧ old.isPrefixOf (c :: cs) = true then
      new ++ replaceLoop old new (lim.map (fun k => k - 1)) (old.length - 1) cs
    else c :: replaceLoop old new lim 0 cs

/-- Replacement loop of `strings.Replace` for the empty `old`: `new` is inserted before each
code point and at the end, while the budget lasts. -/
def insertLoop (new : List Char) : Option Nat → List Char → List Char
  | lim, [] => if lim ≠ some 0 then new else []
  | lim, c :: cs =>
    if lim ≠ some 0 then new ++ c :: insertLoop new (lim.map (fun k => k - 1)) cs
    else c :: cs

/-- Library function `strings.Replace(s, old, new, n)`; a negative `n` means no limit. -/
def Replace (s old new : String) (n : Int) : String :=
  if old = new ∨ n = 0 then s
  else
    let lim : Option Nat := if n < 0 then none else some n.toNat
    if old.data = [] then String.mk (insertLoop new.data lim s.data)
    else String.mk (replaceLoop old.data new.data lim 0 s.data)

/-! ## strconv.Atoi -/

/-- The two error kinds of `strconv`. -/
inductive NumError where
  | ErrSyntax : NumError
  | ErrRange : NumError
  deriving DecidableEq, Repr

/-- Conversion of an integer to a signed machine integer of `w` bits (two's complement
wrap-around). -/
def wrapInt (w : Nat) (x : Int) : Int :=
  (x + 2 ^ (w - 1)) % 2 ^ w - 2 ^ (w - 1)

/-- Digit loop of `strconv.ParseUint` for base 10 on `uint64` with the bound `maxVal`. -/
def parseUintLoop (maxVal : Nat) : List Nat → Nat → Nat × Option NumError
  | [], n => (n, none)
  | c :: rest, n =>
    let lower := c ||| 0x20
    if 48 ≤ c ∧ c ≤ 57 then
      let d := c - 48
      if n ≥ (2 ^ 64 - 1) / 10 + 1 then (maxVal, some NumError.ErrRange)
      else
        let n10 := n * 10
        let n1 := (n10 + d) % 2 ^ 64
        if n1 < n10 ∨ n1 > maxVal then (maxVal, some NumError.ErrRange)
        else parseUintLoop maxVal rest n1
    else if 97 ≤ lower ∧ lower ≤ 122 then
      -- a letter is a digit of value at least 10, which base 10 rejects
      (0, some NumError.ErrSyntax)
    else (0, some NumError.ErrSyntax)

/-- Library function `strconv.ParseUint(s, 10, 0)`. -/
def ParseUint (intSize : Nat) (s : List Nat) : Nat × Option NumError :=
  if s = [] then (0, some NumError.ErrSyntax)
  else
    let maxVal := (2 ^ intSize % 2 ^ 64 + 2 ^ 64 - 1) % 2 ^ 64
    parseUintLoop maxVal s 0

/-- Library function `strconv.ParseInt(s, 10, 0)`; the result is an `int64`. -/
def ParseInt (intSize : Nat) (s : List Nat) : Int × Option NumError :=
  match s with
  | [] => (0, some NumError.ErrSyntax)
  | c :: rest =>
    let neg := decide (c = 45)
    let body := if c = 43 then rest else if c = 45 then rest else c :: rest
    match ParseUint intSize body with
    | (_, some NumError.ErrSyntax) => (0, some NumError.ErrSyntax)
    | (un, _) =>
      let cutoff := 2 ^ (intSize - 1) % 2 ^ 64
      if neg = false ∧ un ≥ cutoff then (wrapInt 64 ((cutoff : Int) - 1), some NumError.ErrRange)
      else if neg = true ∧ un > cutoff then
        (wrapInt 64 (- wrapInt 64 (cutoff : Int)), some NumError.ErrRange)
      else
        let n := wrapInt 64 (un : Int)
        (if neg then wrapInt 64 (- n) else n, none)

/-- Digit loop of the fast path of `strconv.Atoi`, on `int` of `intSize` bits. -/
def atoiFastLoop (intSize : Nat) : List Nat → Int → Option Int
  | [], n => some n
  | ch :: rest, n =>
    let ch' := (ch + 256 - 48) % 256
    if ch' > 9 then none
    else atoiFastLoop intSize rest (wrapInt intSize (n * 10 + (ch' : Int)))

/-- Library function `strconv.Atoi` on the bytes of its argument. -/
def atoiBytes (intSize : Nat) (s : List Nat) : Int × Option NumError :=
  let sLen := s.length
  if (intSize = 32 ∧ (0 < sLen ∧ sLen < 10)) ∨ (intSize = 64 ∧ (0 < sLen ∧ sLen < 19)) then
    match s with
    | [] => (0, some NumError.ErrSyntax)
    | c :: rest =>
      let body := if c = 45 ∨ c = 43 then rest else c :: rest
      if (c = 45 ∨ c = 43) ∧ body.length < 1 then (0, some NumError.ErrSyntax)
      else
        match atoiFastLoop intSize body 0 with
        | none => (0, some NumError.ErrSyntax)
        | some n => (if c = 45 then wrapInt intSize (- n) else n, none)
  else
    let r := ParseInt intSize s
    (wrapInt intSize r.1, r.2)

/-- Library function `strconv.Atoi`. -/
def Atoi (p : Platform) (s : String) : Int × Option NumError :=
  atoiBytes p.IntSize (goBytes s)

/-! ## utils.go -/

/-- Type assertion `str, _ := src.(string)`. -/
def interfaceToString (src : Value) : String :=
  match src with
  | Value.str s => s
  | _ => ""

/-- Coercion `interfaceToBool` of utils.go. -/
def interfaceToBool (p : Platform) (src : Value) : Bool :=
  let strBool := interfaceToString src
  decide (ToLower p strBool = "true")

/-- Coercion `interfaceToInt` of utils.go: the error of `Atoi` is dropped. -/
def interfaceToInt (p : Platform) (src : Value) : Int :=
  let strNumber := interfaceToString src
  (Atoi p strNumber).1

/-! ## Records of device.go

The record types are declared outside `device.go`; they are given here with the fields that
`device.go` assigns. -/

/-- Receiver of the operations. -/
structure Device where
  XAddr : String
  User : String
  Password : String

/-- Request descriptor handed to the transport. -/
structure SOAP where
  Body : String
  XMLNs : List String
  User : String
  Password : String

/-- Result of `GetInformation`. -/
structure DeviceInformation where
  Manufacturer : String
  Model : String
  FirmwareVersion : String
  SerialNumber : String
  HardwareID : String
  deriving DecidableEq, Repr

/-- Calendar date of a `DateTime`. -/
structure Date where
  Year : Int
  Month : Int
  Day : Int
  deriving DecidableEq, Repr

/-- Clock time of a `DateTime`. -/
structure Time where
  Hour : Int
  Minute : Int
  Second : Int
  deriving DecidableEq, Repr

/-- Date and time pair. -/
structure DateTime where
  Time : Time
  Date : Date
  deriving DecidableEq, Repr

/-- Time zone record. -/
structure TimeZone where
  TZ : String
  deriving DecidableEq, Repr

/-- Result of `GetSystemDateAndTime`. -/
structure SystemDateAndTime where
  DateTimeType : String
  DaylightSavings : Bool
  TimeZone : TimeZone
  UTCDateTime : DateTime
  LocalDateTime : DateTime
  deriving DecidableEq, Repr

/-- Network part of the capabilities. -/
structure NetworkCapabilities where
  DynDNS : Bool
  IPFilter : Bool
  IPVersion6 : Bool
  ZeroConfig : Bool
  deriving DecidableEq, Repr

/-- Result of `GetCapabilities`; a `map[string]bool` field is `none` when it is the nil map. -/
structure DeviceCapabilities where
  Network : NetworkCapabilities
  Events : Option (List (String × Bool))
  Streaming : Option (List (String × Bool))
  deriving DecidableEq, Repr

/-- Result of `GetHostname`. -/
structure HostnameInformation where
  Name : String
  FromDHCP : Bool
  deriving DecidableEq, Repr

/-- Result of `GetDNS`; `SearchDomain` is an `interface{}`. -/
structure DNSInformation where
  FromDHCP : Bool
  SearchDomain : Value

/-- Zero value `DeviceInformation{}`. -/
def DeviceInformation.zero : DeviceInformation := ⟨"", "", "", "", ""⟩

/-- Zero value `Date{}`. -/
def Date.zero : Date := ⟨0, 0, 0⟩

/-- Zero value `Time{}`. -/
def Time.zero : Time := ⟨0, 0, 0⟩

/-- Zero value `SystemDateAndTime{}`. -/
def SystemDateAndTime.zero : SystemDateAndTime :=
  ⟨"", false, ⟨""⟩, ⟨Time.zero, Date.zero⟩, ⟨Time.zero, Date.zero⟩⟩

/-- Zero value `NetworkCapabilities{}`. -/
def NetworkCapabilities.zero : NetworkCapabilities := ⟨false, false, false, false⟩

/-- Zero value `DeviceCapabilities{}`: both maps are nil. -/
def DeviceCapabilities.zero : DeviceCapabilities := ⟨NetworkCapabilities.zero, none, none⟩

/-- Zero value `HostnameInformation{}`. -/
def HostnameInformation.zero : HostnameInformation := ⟨"", false⟩

/-- Zero value `DNSInformation{}`. -/
def DNSInformation.zero : DNSInformation := ⟨false, Value.nil⟩

/-! ## Collaborators -/

/-- The functions `device.go` calls and does not define: the transport `soap.SendRequest` and the
three path accessors of the response it returns. -/
structure Collaborators where
  SendRequest : SOAP → String → Value × Option Error
  ValueForPath : Value → String → Value × Option Error
  ValuesForPath : Value → String → List Value × Option Error
  ValueForPathString : Value → String → String × Option Error

/-- Package variable `deviceXMLNs`. -/
def deviceXMLNs : List String :=
  ["xmlns:tds=\"http://www.onvif.org/ver10/device/wsdl\"",
   "xmlns:tt=\"http://www.onvif.org/ver10/schema\""]

/-- Type assertion `v.(map[string]interface{})`. -/
def asMap (v : Value) : Option (List (String × Value)) :=
  match v with
  | Value.map m => some m
  | _ => none

/-! ## device.go -/

/-- Operation `GetInformation` of device.go. -/
def GetInformation (c : Collaborators) (device : Device) : DeviceInformation × Option Error :=
  let soap : SOAP :=
    { Body := "<tds:GetDeviceInformation/>", XMLNs := deviceXMLNs,
      User := device.User, Password := device.Password }
  match c.SendRequest soap device.XAddr with
  | (_, some err) => (DeviceInformation.zero, some err)
  | (response, none) =>
    match c.ValueForPath response "Envelope.Body.GetDeviceInformationResponse" with
    | (_, some err) => (DeviceInformation.zero, some err)
    | (deviceInfo, none) =>
      match asMap deviceInfo with
      | some mapInfo =>
        ({ Manufacturer := interfaceToString (mapIndex mapInfo "Manufacturer"),
           Model := interfaceToString (mapIndex mapInfo "Model"),
           FirmwareVersion := interfaceToString (mapIndex mapInfo "FirmwareVersion"),
           SerialNumber := interfaceToString (mapIndex mapInfo "SerialNumber"),
           HardwareID := interfaceToString (mapIndex mapInfo "HardwareId") }, none)
      | none => (DeviceInformation.zero, none)

/-- The `Date` and `Time` read from the mapping under `key` (`UTCDateTime` or `LocalDateTime`)
of the `SystemDateAndTime` mapping: the block of `GetSystemDateAndTime` that is written once
for each of the two keys.  The `Time` sub-mapping is read inside the branch in which the `Date`
sub-mapping was found. -/
def readDateTime (p : Platform) (mapInfo : List (String × Value)) (key : String) : Date × Time :=
  match asMap (mapIndex mapInfo key) with
  | some dateTimeMap =>
    match asMap (mapIndex dateTimeMap "Date") with
    | some dateMap =>
      let date : Date :=
        { Year := interfaceToInt p (mapIndex dateMap "Year"),
          Month := interfaceToInt p (mapIndex dateMap "Month"),
          Day := interfaceToInt p (mapIndex dateMap "Day") }
      match asMap (mapIndex dateTimeMap "Time") with
      | some timeMap =>
        (date,
         { Hour := interfaceToInt p (mapIndex timeMap "Hour"),
           Minute := interfaceToInt p (mapIndex timeMap "Minute"),
           Second := interfaceToInt p (mapIndex timeMap "Second") })
      | none => (date, Time.zero)
    | none => (Date.zero, Time.zero)
  | none => (Date.zero, Time.zero)

/-- Record assembly of `GetSystemDateAndTime` from the resolved value (device.go lines 71 to 115). -/
def assembleDateAndTime (p : Platform) (dateAndTime : Value) : SystemDateAndTime :=
  match asMap dateAndTime with
  | some mapInfo =>
    let timeZone : TimeZone :=
      match asMap (mapIndex mapInfo "TimeZone") with
      | some mapTZ => { TZ := interfaceToString (mapIndex mapTZ "TZ") }
      | none => { TZ := "" }
    let utc := readDateTime p mapInfo "UTCDateTime"
    let loc := readDateTime p mapInfo "LocalDateTime"
    { DateTimeType := interfaceToString (mapIndex mapInfo "DateTimeType"),
      DaylightSavings := interfaceToBool p (mapIndex mapInfo "DaylightSavings"),
      TimeZone := timeZone,
      UTCDateTime := { Date := utc.1, Time := utc.2 },
      LocalDateTime := { Date := loc.1, Time := loc.2 } }
  | none => SystemDateAndTime.zero

/-- Operation `GetSystemDateAndTime` of device.go. -/
def GetSystemDateAndTime (p : Platform) (c : Collaborators) (device : Device) :
    SystemDateAndTime × Option Error :=
  let soap : SOAP :=
    { Body := "<tds:GetSystemDateAndTime/>", XMLNs := deviceXMLNs,
      User := device.User, Password := device.Password }
  match c.SendRequest soap device.XAddr with
  | (_, some err) => (SystemDateAndTime.zero, some err)
  | (response, none) =>
    match c.ValueForPath response
        "Envelope.Body.GetSystemDateAndTimeResponse.SystemDateAndTime" with
    | (_, some err) => (SystemDateAndTime.zero, some err)
    | (dateAndTime, none) => (assembleDateAndTime p dateAndTime, none)

/-- Network capabilities read from the resolved value. -/
def readNetCap (p : Platform) (ifaceNetCap : Value) : NetworkCapabilities :=
  match asMap ifaceNetCap with
  | some mapNetCap =>
    { DynDNS := interfaceToBool p (mapIndex mapNetCap "DynDNS"),
      IPFilter := interfaceToBool p (mapIndex mapNetCap "IPFilter"),
      IPVersion6 := interfaceToBool p (mapIndex mapNetCap "IPVersion6"),
      ZeroConfig := interfaceToBool p (mapIndex mapNetCap "ZeroConfiguration") }
  | none => NetworkCapabilities.zero

/-- Body of the `range` loop over the events mapping (device.go lines 160 to 167). -/
def eventsStep (p : Platform) (eventsCap : List (String × Bool)) (kv : String × Value) :
    List (String × Bool) :=
  if ToLower p kv.1 = "xaddr" then eventsCap
  else mapSet eventsCap (Replace kv.1 "WS" "" 1) (interfaceToBool p kv.2)

/-- Events capabilities: `make(map[string]bool)` filled by the loop when the value is a
mapping. -/
def readEventsCap (p : Platform) (ifaceEventsCap : Value) : List (String × Bool) :=
  match asMap ifaceEventsCap with
  | some mapEventsCap => mapEventsCap.foldl (eventsStep p) []
  | none => []

/-- Body of the `range` loop over the streaming mapping (device.go lines 178 to 181). -/
def streamingStep (p : Platform) (streamingCap : List (String × Bool)) (kv : String × Value) :
    List (String × Bool) :=
  mapSet streamingCap (Replace kv.1 "_" " " (-1)) (interfaceToBool p kv.2)

/-- Streaming capabilities: `make(map[string]bool)` filled by the loop when the value is a
mapping. -/
def readStreamingCap (p : Platform) (ifaceStreamingCap : Value) : List (String × Bool) :=
  match asMap ifaceStreamingCap with
  | some mapStreamingCap => mapStreamingCap.foldl (streamingStep p) []
  | none => []

/-- Local `envelopeBodyPath` of `GetCapabilities`. -/
def envelopeBodyPath : String := "Envelope.Body.GetCapabilitiesResponse.Capabilities"

/-- Operation `GetCapabilities` of device.go. -/
def GetCapabilities (p : Platform) (c : Collaborators) (device : Device) :
    DeviceCapabilities × Option Error :=
  let soap : SOAP :=
    { XMLNs := deviceXMLNs,
      Body := "<tds:GetCapabilities>\n\t\t\t<tds:Category>All</tds:Category>\n\t\t</tds:GetCapabilities>",
      User := device.User, Password := device.Password }
  match c.SendRequest soap device.XAddr with
  | (_, some err) => (DeviceCapabilities.zero, some err)
  | (response, none) =>
    match c.ValueForPath response (envelopeBodyPath ++ ".Device.Network") with
    | (_, some err) => (DeviceCapabilities.zero, some err)
    | (ifaceNetCap, none) =>
      let netCap := readNetCap p ifaceNetCap
      match c.ValueForPath response (envelopeBodyPath ++ ".Events") with
      | (_, some err) => (DeviceCapabilities.zero, some err)
      | (ifaceEventsCap, none) =>
        let eventsCap := readEventsCap p ifaceEventsCap
        match c.ValueForPath response (envelopeBodyPath ++ ".Media.StreamingCapabilities") with
        | (_, some err) => (DeviceCapabilities.zero, some err)
        | (ifaceStreamingCap, none) =>
          let streamingCap := readStreamingCap p ifaceStreamingCap
          ({ Network := netCap, Events := some eventsCap, Streaming := some streamingCap }, none)

/-- Operation `GetDiscoveryMode` of device.go. -/
def GetDiscoveryMode (c : Collaborators) (device : Device) : String × Option Error :=
  let soap : SOAP :=
    { Body := "<tds:GetDiscoveryMode/>", XMLNs := deviceXMLNs,
      User := device.User, Password := device.Password }
  match c.SendRequest soap device.XAddr with
  | (_, some err) => ("", some err)
  | (response, none) =>
    let discoveryMode :=
      (c.ValueForPathString response "Envelope.Body.GetDiscoveryModeResponse.DiscoveryMode").1
    (discoveryMode, none)

/-- Loop of `GetScopes` (device.go lines 239 to 244): appends one scope for each element that is
a mapping. -/
def collectScopes (scopes : List String) : List Value → List String
  | [] => scopes
  | ifaceScope :: rest =>
    match asMap ifaceScope with
    | some mapScope => collectScopes (scopes ++ [interfaceToString (mapIndex mapScope "ScopeItem")]) rest
    | none => collectScopes scopes rest

/-- Operation `GetScopes` of device.go; the `[]string` result is `none` when it is the nil slice. -/
def GetScopes (c : Collaborators) (device : Device) : Option (List String) × Option Error :=
  let soap : SOAP :=
    { Body := "<tds:GetScopes/>", XMLNs := deviceXMLNs,
      User := device.User, Password := device.Password }
  match c.SendRequest soap device.XAddr with
  | (_, some err) => (none, some err)
  | (response, none) =>
    match c.ValuesForPath response "Envelope.Body.GetScopesResponse.Scopes" with
    | (_, some err) => (none, some err)
    | (ifaceScopes, none) => (some (collectScopes [] ifaceScopes), none)

/-- Operation `GetHostname` of device.go. -/
def GetHostname (p : Platform) (c : Collaborators) (device : Device) :
    HostnameInformation × Option Error :=
  let soap : SOAP :=
    { Body := "<tds:GetHostname/>", XMLNs := deviceXMLNs,
      User := device.User, Password := device.Password }
  match c.SendRequest soap device.XAddr with
  | (_, some err) => (HostnameInformation.zero, some err)
  | (response, none) =>
    match c.ValueForPath response "Envelope.Body.GetHostnameResponse.HostnameInformation" with
    | (_, some err) => (HostnameInformation.zero, some err)
    | (ifaceHostInfo, none) =>
      match asMap ifaceHostInfo with
      | some mapHostInfo =>
        ({ Name := interfaceToString (mapIndex mapHostInfo "Name"),
           FromDHCP := interfaceToBool p (mapIndex mapHostInfo "FromDHCP") }, none)
      | none => (HostnameInformation.zero, none)

/-- Loop of the `[]interface{}` case of `GetDNS`: `domains = append(domains, interfaceToString(domain))`. -/
def collectDomains (domains : List String) : List Value → List String
  | [] => domains
  | domain :: rest => collectDomains (domains ++ [interfaceToString domain]) rest

/-- Type switch of `GetDNS` on the `SearchDomain` value (device.go lines 309 to 321); a value of
any other type leaves the field at its zero value. -/
def readSearchDomain (this : Value) : Value :=
  match this with
  | Value.str _ => Value.str (interfaceToString this)
  | Value.strs _ => this
  | Value.seq t => Value.strs (collectDomains [] t)
  | _ => Value.nil

/-- Operation `GetDNS` of device.go. -/
def GetDNS (p : Platform) (c : Collaborators) (device : Device) : DNSInformation × Option Error :=
  let soap : SOAP :=
    { Body := "<tds:GetDNS/>", XMLNs := deviceXMLNs,
      User := device.User, Password := device.Password }
  match c.SendRequest soap device.XAddr with
  | (_, some err) => (DNSInformation.zero, some err)
  | (response, none) =>
    match c.ValueForPath response "Envelope.Body.GetDNSResponse.DNSInformation" with
    | (_, some err) => (DNSInformation.zero, some err)
    | (ifaceDNSInfo, none) =>
      match asMap ifaceDNSInfo with
      | some mapDNSInfo =>
        ({ FromDHCP := interfaceToBool p (mapIndex mapDNSInfo "FromDHCP"),
           SearchDomain := readSearchDomain (mapIndex mapDNSInfo "SearchDomain") }, none)
      | none => (DNSInformation.zero, none)

/-! ## Path navigator

The accessors `ValueForPath`, `ValuesForPath` and `ValueForPathString` are called by `device.go`
and defined elsewhere.  The operations above take them as `Collaborators`; the definitions below
give the navigator the specification describes, so that the operations can be run on a concrete
decoded document. -/

/-- Modelled from the spec: the splitting of a path at every `.`, part of the path navigator, which
`device.go` does not contain. -/
def splitOnDot : List Char → List (List Char)
  | [] => [[]]
  | c :: cs =>
    match splitOnDot cs with
    | [] => [[]]
    | seg :: segs => if c = '.' then [] :: seg :: segs else (c :: seg) :: segs

/-- Modelled from the spec: the segments of a dotted path, part of the path navigator, which
`device.go` does not contain. -/
def pathSegments (path : String) : List String :=
  (splitOnDot path.data).map String.mk

/-- Modelled from the spec: one step of the path walk, which `device.go` does not contain.
The current node must be a Mapping containing the segment; what happens at a Sequence is left
open by the specification and is the parameter `seqRule`; any other node cannot be descended. -/
def descend (seqRule : List Value → String → Option Value) (node : Value) (segment : String) :
    Option Value :=
  match node with
  | Value.map m => mapGet m segment
  | Value.seq xs => seqRule xs segment
  | _ => none

/-- Modelled from the spec: the walk of the path navigator along the segments, which `device.go`
does not contain. -/
def walkPath (seqRule : List Value → String → Option Value) : Value → List String → Option Value
  | node, [] => some node
  | node, segment :: rest =>
    match descend seqRule node segment with
    | some next => walkPath seqRule next rest
    | none => none

/-- Modelled from the spec: the accessor `valueForPath`, which `device.go` calls and does not
contain: the sub-tree at the path, or the `NotFound` error. -/
def specValueForPath (seqRule : List Value → String → Option Value) (doc : Value)
    (path : String) : Value × Option Error :=
  match walkPath seqRule doc (pathSegments path) with
  | some v => (v, none)
  | none => (Value.nil, some Error.PathNotFound)

/-- Modelled from the spec: the accessor `valuesForPath`, which `device.go` calls and does not
contain: a final Sequence is returned as it is, any other final node as a one-element
sequence. -/
def specValuesForPath (seqRule : List Value → String → Option Value) (doc : Value)
    (path : String) : List Value × Option Error :=
  match walkPath seqRule doc (pathSegments path) with
  | some (Value.seq xs) => (xs, none)
  | some v => ([v], none)
  | none => ([], some Error.PathNotFound)

/-- Modelled from the spec: the accessor `valueForPathString`, which `device.go` calls and does
not contain: `valueForPath` followed by `asString`, the empty string and no error on
`NotFound`. -/
def specValueForPathString (seqRule : List Value → String → Option Value) (doc : Value)
    (path : String) : String × Option Error :=
  match specValueForPath seqRule doc path with
  | (v, none) => (interfaceToString v, none)
  | (_, some _) => ("", none)

/-- The collaborators made of a transport `send` and the navigator of the specification. -/
def specCollaborators (seqRule : List Value → String → Option Value)
    (send : SOAP → String → Value × Option Error) : Collaborators :=
  { SendRequest := send,
    ValueForPath := specValueForPath seqRule,
    ValuesForPath := specValuesForPath seqRule,
    ValueForPathString := specValueForPathString seqRule }

/-- Collaborators whose transport succeeds with the document `doc`; a Sequence met on the way
is not descended. -/
def docCollaborators (doc : Value) : Collaborators :=
  specCollaborators (fun _ _ => none) (fun _ _ => (doc, none))

/-- A response document `{Envelope: {Body: {name: payload}}}`. -/
def envelope (name : String) (payload : Value) : Value :=
  Value.map [("Envelope", Value.map [("Body", Value.map [(name, payload)])])]

/-- A device to call the operations on. -/
def sampleDevice : Device :=
  { XAddr := "http://192.0.2.1/onvif/device_service", User := "user", Password := "secret" }

/-- A 64-bit platform; the case table is the identity above ASCII. -/
def platform64 : Platform := { IntSize := 64, unicodeToLower := fun c => c }

/-- A 32-bit platform; the case table is the identity above ASCII. -/
def platform32 : Platform := { IntSize := 32, unicodeToLower := fun c => c }

/-! ## Decimal text -/

/-- The character of a decimal digit. -/
def digitChar (d : Nat) : Char := Char.ofNat (48 + d)

/-- The decimal digits of a natural number, most significant first; `fuel` bounds the number
of digits. -/
def natDigits : Nat → Nat → List Char
  | 0, _ => []
  | fuel + 1, n => if n < 10 then [digitChar n] else natDigits fuel (n / 10) ++ [digitChar (n % 10)]

/-- The base-10 text of an integer: its decimal digits, after a `-` when it is negative. -/
def decimalText (n : Int) : String :=
  if n < 0 then String.mk ('-' :: natDigits (n.natAbs + 1) n.natAbs)
  else String.mk (natDigits (n.natAbs + 1) n.natAbs)

/-- The range of the platform `int`. -/
def inIntRange (p : Platform) (n : Int) : Prop :=
  -(2 ^ (p.IntSize - 1) : Int) ≤ n ∧ n < 2 ^ (p.IntSize - 1)

instance (p : Platform) (n : Int) : Decidable (inIntRange p n) := by
  unfold inIntRange; exact inferInstance

/-! ## Notions used to state the properties -/

/-- The case variants of the text `true`: four characters, the first `t` or `T`, the second
`r` or `R`, the third `u` or `U`, the fourth `e` or `E`. -/
def IsTrueVariant (s : String) : Prop :=
  ∃ c1 c2 c3 c4 : Char, s = String.mk [c1, c2, c3, c4] ∧ (c1 = 't' ∨ c1 = 'T') ∧
    (c2 = 'r' ∨ c2 = 'R') ∧ (c3 = 'u' ∨ c3 = 'U') ∧ (c4 = 'e' ∨ c4 = 'E')

/-- The request descriptor an operation of `device.go` builds around its body. -/
def requestOf (body : String) (device : Device) : SOAP :=
  { Body := body, XMLNs := deviceXMLNs, User := device.User, Password := device.Password }

/-- The body of the request of `GetCapabilities`. -/
def capabilitiesBody : String :=
  "<tds:GetCapabilities>\n\t\t\t<tds:Category>All</tds:Category>\n\t\t</tds:GetCapabilities>"

/-- A capabilities response with all three parts. -/
def capsDoc : Value :=
  envelope "GetCapabilitiesResponse" (Value.map [("Capabilities", Value.map [
    ("Device", Value.map [("Network", Value.map [
      ("DynDNS", Value.str "true"), ("IPFilter", Value.str "false"),
      ("IPVersion6", Value.str "TRUE"), ("ZeroConfiguration", Value.str "true")])]),
    ("Events", Value.map [
      ("WSPullPointSupport", Value.str "true"),
      ("XAddr", Value.str "http://192.0.2.1/onvif/event_service")]),
    ("Media", Value.map [("StreamingCapabilities", Value.map [
      ("RTP_RTSP_TCP", Value.str "true"), ("RTPMulticast", Value.str "false")])])])])

/-- A capabilities response whose `Capabilities` container is there and has no `Events`. -/
def capsDocNoEvents : Value :=
  envelope "GetCapabilitiesResponse" (Value.map [("Capabilities", Value.map [
    ("Device", Value.map [("Network", Value.map [("DynDNS", Value.str "true")])]),
    ("Media", Value.map [("StreamingCapabilities", Value.map [
      ("RTP_TCP", Value.str "true")])])])])

/-- A date and time response whose `UTCDateTime` has a `Time` and no `Date`. -/
def timeOnlyDoc : Value :=
  envelope "GetSystemDateAndTimeResponse" (Value.map [("SystemDateAndTime", Value.map [
    ("DateTimeType", Value.str "NTP"),
    ("UTCDateTime", Value.map [("Time", Value.map [
      ("Hour", Value.str "12"), ("Minute", Value.str "34"), ("Second", Value.str "56")])])])])

/-- A DNS response with the given `SearchDomain`. -/
def dnsDoc (searchDomain : Value) : Value :=
  envelope "GetDNSResponse" (Value.map [("DNSInformation", Value.map [
    ("FromDHCP", Value.str "true"), ("SearchDomain", searchDomain)])])

/-- A date and time response whose `UTCDateTime` has the same `Time` and a `Date` too. -/
def dateAndTimeDoc : Value :=
  envelope "GetSystemDateAndTimeResponse" (Value.map [("SystemDateAndTime", Value.map [
    ("DateTimeType", Value.str "NTP"),
    ("UTCDateTime", Value.map [
      ("Time", Value.map [
        ("Hour", Value.str "12"), ("Minute", Value.str "34"), ("Second", Value.str "56")]),
      ("Date", Value.map [
        ("Year", Value.str "2024"), ("Month", Value.str "2"), ("Day", Value.str "29")])])])])

/-- The map obtained from `acc` by writing, in list order, the entry `f kv` of each element `kv`
that has one: the shape of the two `range` loops of `GetCapabilities`. -/
def writeEntries {α β : Type} (f : α → Option (String × β)) (acc : List (String × β))
    (l : List α) : List (String × β) :=
  l.foldl (fun acc kv => match f kv with
    | none => acc
    | some e => mapSet acc e.1 e.2) acc

/-- The entry the events loop writes for one key of the mapping, if any. -/
def eventsEntry (p : Platform) (kv : String × Value) : Option (String × Bool) :=
  if ToLower p kv.1 = "xaddr" then none
  else some (Replace kv.1 "WS" "" 1, interfaceToBool p kv.2)

/-- The entry the streaming loop writes for one key of the mapping. -/
def streamingEntry (p : Platform) (kv : String × Value) : Option (String × Bool) :=
  some (Replace kv.1 "_" " " (-1), interfaceToBool p kv.2)

/-- Replacement of every underscore of a list of characters by a space. -/
def underscoresToSpaces (l : List Char) : List Char :=
  l.map (fun c => if c = '_' then ' ' else c)

/-- Whether a byte is an ASCII decimal digit. -/
def isDigitByte (c : Nat) : Bool := decide (48 ≤ c ∧ c ≤ 57)

/-- The number that the decimal digits `ds` continue from `n`. -/
def digitsValue (n : Nat) (ds : List Nat) : Nat :=
  ds.foldl (fun a c => a * 10 + (c - 48)) n

/-- The sign of a text and what follows it: one leading `+` or `-` is taken off. -/
def splitSign : List Nat → Bool × List Nat
  | [] => (false, [])
  | c :: rest => if c = 43 then (false, rest) else if c = 45 then (true, rest) else (false, c :: rest)

/-- The value of `strconv.Atoi` in closed form, for an `int` of `w` bits.  With `ds` the leading
digits of the text after its sign: the bound of `int` on the side of the sign when `ds` exceeds
`2 ^ w - 1`; otherwise 0 when `ds` is empty or is followed by another byte; otherwise the signed
number `ds`, brought to the nearest bound of `int` when it is out of range. -/
def atoiClosedForm (w : Nat) (s : List Nat) : Int :=
  let neg := (splitSign s).1
  let body := (splitSign s).2
  let ds := body.takeWhile isDigitByte
  let rest := body.dropWhile isDigitByte
  let m := digitsValue 0 ds
  if m > 2 ^ w - 1 then (if neg then -(2 ^ (w - 1) : Int) else 2 ^ (w - 1) - 1)
  else if ds = [] ∨ rest ≠ [] then 0
  else if neg then (if m > 2 ^ (w - 1) then -(2 ^ (w - 1) : Int) else -(m : Int))
  else (if m ≥ 2 ^ (w - 1) then 2 ^ (w - 1) - 1 else (m : Int))

/-- Whether the text starts with `-`. -/
def signOf (s : String) : Bool := (splitSign (goBytes s)).1

/-- The decimal digits that the text starts with, after its sign. -/
def leadingDigits (s : String) : List Nat := (splitSign (goBytes s)).2.takeWhile isDigitByte

/-- What follows the leading digits of the text. -/
def afterDigits (s : String) : List Nat := (splitSign (goBytes s)).2.dropWhile isDigitByte

/-- Collaborators whose transport fails with the error `e`. -/
def failingCollaborators (e : Error) : Collaborators :=
  specCollaborators (fun _ _ => none) (fun _ _ => (Value.nil, some e))

/-- The path `segments` resolves in `d` through mappings to `v`: each segment in turn is a key
of the mapping reached so far, and `v` is the value under the last one. -/
inductive ResolvesTo : Value → List String → Value → Prop where
  | done (v : Value) : ResolvesTo v [] v
  | step (m : List (String × Value)) (k : String) (rest : List String) (next v : Value) :
      mapGet m k = some next → ResolvesTo next rest v → ResolvesTo (Value.map m) (k :: rest) v

/-- A segment of the path is absent in `d`: following the segments through mappings, a mapping
is reached that does not have the next segment as a key. -/
inductive SegmentAbsent : Value → List String → Prop where
  | here (m : List (String × Value)) (k : String) (rest : List String) :
      mapGet m k = none → SegmentAbsent (Value.map m) (k :: rest)
  | later (m : List (String × Value)) (k : String) (rest : List String) (next : Value) :
      mapGet m k = some next → SegmentAbsent next rest → SegmentAbsent (Value.map m) (k :: rest)

/-- A scopes response whose `Scopes` occurs once. -/
def oneScopeDoc : Value :=
  envelope "GetScopesResponse" (Value.map [("Scopes", Value.map [
    ("ScopeDef", Value.str "Fixed"), ("ScopeItem", Value.str "onvif://www.onvif.org/type/video_encoder")])])

/-- Three occurrences of `Scopes`, the second a bare scalar. -/
def threeScopes : List Value :=
  [Value.map [("ScopeDef", Value.str "Fixed"),
      ("ScopeItem", Value.str "onvif://www.onvif.org/type/video_encoder")],
   Value.str "stray",
   Value.map [("ScopeDef", Value.str "Configurable"),
      ("ScopeItem", Value.str "onvif://www.onvif.org/name/Camera")]]

/-- A scopes response whose `Scopes` occurs three times, once as a bare scalar. -/
def threeScopesDoc : Value :=
  envelope "GetScopesResponse" (Value.map [("Scopes", Value.seq threeScopes)])

/-- The scope that `GetScopes` reads from one element: `interfaceToString` of its `ScopeItem`
when the element is a mapping, nothing otherwise. -/
def scopeItemOf (v : Value) : Option String :=
  (asMap v).map (fun mapScope => interfaceToString (mapIndex mapScope "ScopeItem"))

/-- Collaborators like `docCollaborators doc`, except that `ValueForPathString` reports the
not-found error next to its empty string when the path is absent. -/
def strictStringCollaborators (doc : Value) : Collaborators :=
  { docCollaborators doc with
    ValueForPathString := fun d path =>
      match specValueForPath (fun _ _ => none) d path with
      | (v, none) => (interfaceToString v, none)
      | (_, some e) => ("", some e) }

/-- An events mapping with two `WS` keys and an `XAddr`. -/
def eventsSample : List (String × Value) :=
  [("WSPullPointSupport", Value.str "true"),
   ("XAddr", Value.str "http://192.0.2.1/onvif/event_service"),
   ("WSSubscriptionPolicySupport", Value.str "false")]

/-- The mapping `eventsSample` traversed in another order. -/
def eventsSampleSwapped : List (String × Value) :=
  [("XAddr", Value.str "http://192.0.2.1/onvif/event_service"),
   ("WSPullPointSupport", Value.str "true"),
   ("WSSubscriptionPolicySupport", Value.str "false")]

/-! # Theorems -/

/-! ## Lower-casing -/

theorem asciiToLower_cases (c t : Char) (h : asciiToLower c = t) :
    c = t ∨ c = Char.ofNat (t.toNat - 32) := by
  unfold asciiToLower at h
  simp only [Char.reduceToNat] at h
  split_ifs at h with hu
  · right
    have hc := Char.ofNat_toNat c
    rw [← hc, ← h]
    generalize c.toNat = n at hu h hc
    obtain ⟨h1, h2⟩ := hu
    interval_cases n <;> rfl
  · left; exact h

theorem runeToLower_ascii (p : Platform) (c : Char) (h : c.toNat ≤ 127) :
    runeToLower p c = asciiToLower c := by
  unfold runeToLower asciiToLower
  simp [h]

theorem runeToLower_cases (p : Platform) (c t : Char)
    (htab : ∀ c : Char, 127 < c.toNat → p.unicodeToLower c ≠ t)
    (h : runeToLower p c = t) : c = t ∨ c = Char.ofNat (t.toNat - 32) := by
  by_cases hc : c.toNat ≤ 127
  · rw [runeToLower_ascii p c hc] at h
    exact asciiToLower_cases c t h
  · exfalso
    have : runeToLower p c = p.unicodeToLower c := by
      unfold runeToLower; simp [hc]
    rw [this] at h
    exact htab c (by omega) h

theorem isTrueVariant_of_map (f : Char → Char) (l : List Char)
    (hf : ∀ c t, t ∈ ['t', 'r', 'u', 'e'] → f c = t → c = t ∨ c = Char.ofNat (t.toNat - 32))
    (h : l.map f = ['t', 'r', 'u', 'e']) : IsTrueVariant (String.mk l) := by
  rcases l with _ | ⟨c1, _ | ⟨c2, _ | ⟨c3, _ | ⟨c4, _ | ⟨c5, l⟩⟩⟩⟩⟩ <;> simp at h
  obtain ⟨h1, h2, h3, h4⟩ := h
  exact ⟨c1, c2, c3, c4, rfl, hf c1 't' (by simp) h1, hf c2 'r' (by simp) h2,
    hf c3 'u' (by simp) h3, hf c4 'e' (by simp) h4⟩

theorem toLower_true_variant (p : Platform)
    (htab : ∀ c : Char, 127 < c.toNat → p.unicodeToLower c ∉ ['t', 'r', 'u', 'e'])
    (s : String) (h : ToLower p s = "true") : IsTrueVariant s := by
  obtain ⟨l⟩ := s
  unfold ToLower at h
  simp only at h
  split_ifs at h with h1 h2
  · rw [h]; exact ⟨'t', 'r', 'u', 'e', rfl, Or.inl rfl, Or.inl rfl, Or.inl rfl, Or.inl rfl⟩
  · have h' : l.map asciiToLower = ['t', 'r', 'u', 'e'] := by
      have := congrArg String.data h
      simpa using this
    exact isTrueVariant_of_map asciiToLower l (fun c t _ hc => asciiToLower_cases c t hc) h'
  · have h' : l.map (runeToLower p) = ['t', 'r', 'u', 'e'] := by
      have := congrArg String.data h
      simpa using this
    refine isTrueVariant_of_map (runeToLower p) l (fun c t ht hc => ?_) h'
    exact runeToLower_cases p c t (fun c' hc' heq => htab c' hc' (heq ▸ ht)) hc

theorem interfaceToBool_variant (p : Platform) (s : String) (h : IsTrueVariant s) :
    interfaceToBool p (Value.str s) = true := by
  obtain ⟨c1, c2, c3, c4, rfl, h1, h2, h3, h4⟩ := h
  rcases h1 with rfl | rfl <;> rcases h2 with rfl | rfl <;> rcases h3 with rfl | rfl <;>
    rcases h4 with rfl | rfl <;> rfl

/-! ## Scalar coercion: strings and booleans -/

/-- C3: `interfaceToBool` is true exactly when the lower-cased `interfaceToString` of the value
is `true`.  Every case variant of `true` gives true; a value that is not a string (the nil
value, a mapping, a sequence, any other scalar) gives false; and, the case table of the platform
sending no rune above ASCII to one of `t`, `r`, `u`, `e` (as the Unicode table does), every
string that is not a case variant of `true` gives false. -/
theorem interfaceToBool_true_iff (p : Platform) :
    (∀ v, interfaceToBool p v = true ↔ ToLower p (interfaceToString v) = "true") ∧
    (∀ s, IsTrueVariant s → interfaceToBool p (Value.str s) = true) ∧
    ((∀ c : Char, 127 < c.toNat → p.unicodeToLower c ∉ ['t', 'r', 'u', 'e']) →
      ∀ s, ¬ IsTrueVariant s → interfaceToBool p (Value.str s) = false) ∧
    (∀ v, (∀ s, v ≠ Value.str s) → interfaceToBool p v = false) ∧
    interfaceToBool p Value.nil = false ∧
    (∀ m, interfaceToBool p (Value.map m) = false) ∧
    (∀ xs, interfaceToBool p (Value.seq xs) = false) := by
  refine ⟨fun v => ?_, interfaceToBool_variant p, fun htab s hs => ?_, fun v hv => ?_,
    rfl, fun _ => rfl, fun _ => rfl⟩
  · simp [interfaceToBool]
  · by_contra hne
    have ht : ToLower p s = "true" := by
      simpa [interfaceToBool, interfaceToString] using hne
    exact hs (toLower_true_variant p htab s ht)
  · cases v with
    | str s => exact absurd rfl (hv s)
    | _ => rfl

/-- C3 at concrete inputs: `TRUE`, `True` and `tRuE` are true, `yes`, `true ` and `1` are false,
and so are the nil value, a mapping and a sequence. -/
theorem interfaceToBool_true_iff_witness :
    interfaceToBool platform64 (Value.str "TRUE") = true ∧
    interfaceToBool platform64 (Value.str "True") = true ∧
    interfaceToBool platform64 (Value.str "tRuE") = true ∧
    interfaceToBool platform64 (Value.str "yes") = false ∧
    interfaceToBool platform64 (Value.str "true ") = false ∧
    interfaceToBool platform64 (Value.str "1") = false ∧
    interfaceToBool platform64 Value.nil = false ∧
    interfaceToBool platform64 (Value.map [("a", Value.str "true")]) = false ∧
    interfaceToBool platform64 (Value.seq [Value.str "true"]) = false := by
  have h := interfaceToBool_true_iff platform64
  have htab : ∀ c : Char, 127 < c.toNat →
      platform64.unicodeToLower c ∉ ['t', 'r', 'u', 'e'] := by
    intro c hc hmem
    simp only [platform64, List.mem_cons, List.mem_singleton, List.not_mem_nil, or_false] at hmem
    rcases hmem with rfl | rfl | rfl | rfl <;> revert hc <;> decide
  refine ⟨h.2.1 _ ⟨'T', 'R', 'U', 'E', rfl, by simp, by simp, by simp, by simp⟩,
    h.2.1 _ ⟨'T', 'r', 'u', 'e', rfl, by simp, by simp, by simp, by simp⟩,
    h.2.1 _ ⟨'t', 'R', 'u', 'E', rfl, by simp, by simp, by simp, by simp⟩,
    h.2.2.1 htab _ (by rintro ⟨c1, c2, c3, c4, h0, _⟩; have h1 := congrArg String.data h0; simp at h1),
    h.2.2.1 htab _ (by rintro ⟨c1, c2, c3, c4, h0, _⟩; have h1 := congrArg String.data h0; simp at h1),
    h.2.2.1 htab _ (by rintro ⟨c1, c2, c3, c4, h0, _⟩; have h1 := congrArg String.data h0; simp at h1),
    h.2.2.2.2.1, h.2.2.2.2.2.1 _, h.2.2.2.2.2.2 _⟩

/-- C4: `interfaceToString` is a total function: it returns the contained string of a string
scalar, and the empty string for the nil value, a mapping, a sequence, a string slice, a boolean,
a number, and in general for every value that is not a string. -/
theorem interfaceToString_total :
    (∀ s, interfaceToString (Value.str s) = s) ∧
    interfaceToString Value.nil = "" ∧
    (∀ m, interfaceToString (Value.map m) = "") ∧
    (∀ xs, interfaceToString (Value.seq xs) = "") ∧
    (∀ xs, interfaceToString (Value.strs xs) = "") ∧
    (∀ b, interfaceToString (Value.bool b) = "") ∧
    (∀ n, interfaceToString (Value.num n) = "") ∧
    (∀ v, (∃ s, v = Value.str s ∧ interfaceToString v = s) ∨
      ((∀ s, v ≠ Value.str s) ∧ interfaceToString v = "")) := by
  refine ⟨fun _ => rfl, rfl, fun _ => rfl, fun _ => rfl, fun _ => rfl, fun _ => rfl,
    fun _ => rfl, fun v => ?_⟩
  cases v with
  | str s => exact Or.inl ⟨s, rfl, rfl⟩
  | _ => exact Or.inr ⟨fun s h => (by cases h), rfl⟩

theorem mapIndex_of_mapGet_none (m : List (String × Value)) (k : String)
    (h : mapGet m k = none) : mapIndex m k = Value.nil := by
  induction m with
  | nil => rfl
  | cons kv rest ih =>
    obtain ⟨k', v⟩ := kv
    unfold mapGet at h
    unfold mapIndex
    split_ifs at h ⊢ with hk
    exact ih h

theorem collectDomains_eq (acc : List String) (t : List Value) :
    collectDomains acc t = acc ++ t.map interfaceToString := by
  induction t generalizing acc with
  | nil => simp [collectDomains]
  | cons d rest ih => simp [collectDomains, ih]

/-! ## Record assembly -/

/-- C10: when the transport succeeds and `Envelope.Body.GetDeviceInformationResponse` resolves to
a mapping `m`, `GetInformation` returns no error and the record whose five fields are
`interfaceToString` of the keys `Manufacturer`, `Model`, `FirmwareVersion`, `SerialNumber` and
`HardwareId` of `m`; a key that `m` does not have gives the empty string. -/
theorem getInformation_fields (c : Collaborators) (device : Device) (response : Value)
    (m : List (String × Value))
    (hsend : c.SendRequest (requestOf "<tds:GetDeviceInformation/>" device) device.XAddr
      = (response, none))
    (hpath : c.ValueForPath response "Envelope.Body.GetDeviceInformationResponse"
      = (Value.map m, none)) :
    GetInformation c device =
      ({ Manufacturer := interfaceToString (mapIndex m "Manufacturer"),
         Model := interfaceToString (mapIndex m "Model"),
         FirmwareVersion := interfaceToString (mapIndex m "FirmwareVersion"),
         SerialNumber := interfaceToString (mapIndex m "SerialNumber"),
         HardwareID := interfaceToString (mapIndex m "HardwareId") }, none) ∧
    (∀ k, mapGet m k = none → interfaceToString (mapIndex m k) = "") := by
  refine ⟨?_, fun k hk => ?_⟩
  · unfold GetInformation
    simp only [requestOf] at hsend
    simp only [hsend, hpath, asMap]
  · rw [mapIndex_of_mapGet_none m k hk]; rfl

/-- C10 on the document `{Envelope: {Body: {GetDeviceInformationResponse: {Manufacturer: "Acme",
Model: "X1"}}}}`: the record is `{"Acme", "X1", "", "", ""}` and there is no error. -/
theorem getInformation_fields_witness :
    GetInformation
      (docCollaborators (envelope "GetDeviceInformationResponse"
        (Value.map [("Manufacturer", Value.str "Acme"), ("Model", Value.str "X1")])))
      sampleDevice
    = (⟨"Acme", "X1", "", "", ""⟩, none) :=
  (getInformation_fields _ sampleDevice
    (envelope "GetDeviceInformationResponse"
      (Value.map [("Manufacturer", Value.str "Acme"), ("Model", Value.str "X1")]))
    [("Manufacturer", Value.str "Acme"), ("Model", Value.str "X1")] rfl rfl).1

/-- C9: when the transport succeeds and `Envelope.Body.GetDNSResponse.DNSInformation` resolves to
a mapping `m`, `GetDNS` returns no error and `FromDHCP` is `interfaceToBool` of the key
`FromDHCP`, for each of the three shapes of the key `SearchDomain`: a string `s` gives `s`; a
string slice gives that slice; a sequence `t` of untyped values gives the string slice of
`interfaceToString` of each element of `t`, in the order of `t` and of the length of `t`. -/
theorem getDNS_searchDomain_shapes (p : Platform) (c : Collaborators) (device : Device)
    (response : Value) (m : List (String × Value))
    (hsend : c.SendRequest (requestOf "<tds:GetDNS/>" device) device.XAddr = (response, none))
    (hpath : c.ValueForPath response "Envelope.Body.GetDNSResponse.DNSInformation"
      = (Value.map m, none)) :
    (∀ s, mapIndex m "SearchDomain" = Value.str s →
      GetDNS p c device =
        ({ FromDHCP := interfaceToBool p (mapIndex m "FromDHCP"),
           SearchDomain := Value.str s }, none)) ∧
    (∀ xs, mapIndex m "SearchDomain" = Value.strs xs →
      GetDNS p c device =
        ({ FromDHCP := interfaceToBool p (mapIndex m "FromDHCP"),
           SearchDomain := Value.strs xs }, none)) ∧
    (∀ t, mapIndex m "SearchDomain" = Value.seq t →
      GetDNS p c device =
        ({ FromDHCP := interfaceToBool p (mapIndex m "FromDHCP"),
           SearchDomain := Value.strs (t.map interfaceToString) }, none) ∧
      (t.map interfaceToString).length = t.length ∧
      ∀ i (h : i < t.length), (t.map interfaceToString)[i]? = some (interfaceToString (t.get ⟨i, h⟩))) := by
  have hrun : GetDNS p c device =
      ({ FromDHCP := interfaceToBool p (mapIndex m "FromDHCP"),
         SearchDomain := readSearchDomain (mapIndex m "SearchDomain") }, none) := by
    unfold GetDNS
    simp only [requestOf] at hsend
    simp only [hsend, hpath, asMap]
  refine ⟨fun s hs => ?_, fun xs hxs => ?_, fun t ht => ⟨?_, by simp, fun i h => by simp [h]⟩⟩
  · rw [hrun, hs]; rfl
  · rw [hrun, hxs]; rfl
  · rw [hrun, ht]; simp [readSearchDomain, collectDomains_eq]

/-- C9 on three documents: `SearchDomain` as the string `example.com`, as the string slice
`[a.com, b.com]`, and as the untyped sequence `[a.com, b.com]`. -/
theorem getDNS_searchDomain_shapes_witness :
    GetDNS platform64 (docCollaborators (dnsDoc (Value.str "example.com"))) sampleDevice
      = (⟨true, Value.str "example.com"⟩, none) ∧
    GetDNS platform64 (docCollaborators (dnsDoc (Value.strs ["a.com", "b.com"]))) sampleDevice
      = (⟨true, Value.strs ["a.com", "b.com"]⟩, none) ∧
    GetDNS platform64
        (docCollaborators (dnsDoc (Value.seq [Value.str "a.com", Value.str "b.com"]))) sampleDevice
      = (⟨true, Value.strs ["a.com", "b.com"]⟩, none) :=
  ⟨(getDNS_searchDomain_shapes platform64 _ sampleDevice (dnsDoc (Value.str "example.com"))
      [("FromDHCP", Value.str "true"), ("SearchDomain", Value.str "example.com")]
      rfl rfl).1 "example.com" rfl,
   (getDNS_searchDomain_shapes platform64 _ sampleDevice (dnsDoc (Value.strs ["a.com", "b.com"]))
      [("FromDHCP", Value.str "true"), ("SearchDomain", Value.strs ["a.com", "b.com"])]
      rfl rfl).2.1 ["a.com", "b.com"] rfl,
   ((getDNS_searchDomain_shapes platform64 _ sampleDevice
      (dnsDoc (Value.seq [Value.str "a.com", Value.str "b.com"]))
      [("FromDHCP", Value.str "true"),
       ("SearchDomain", Value.seq [Value.str "a.com", Value.str "b.com"])]
      rfl rfl).2.2 [Value.str "a.com", Value.str "b.com"] rfl).1⟩

/-- C5, as the code has it: after a successful transport, `GetCapabilities` returns the zero
record and the error of the lookup as soon as one of the three paths `Device.Network`, `Events`
and `Media.StreamingCapabilities` under `Envelope.Body.GetCapabilitiesResponse.Capabilities`
does not resolve; when all three resolve there is no error and the record holds the three parts
read from the resolved values, a part whose value is not a mapping being zero-valued (network)
or the empty map (events, streaming). -/
theorem getCapabilities_lookups (p : Platform) (c : Collaborators) (device : Device)
    (response : Value)
    (hsend : c.SendRequest (requestOf capabilitiesBody device) device.XAddr = (response, none)) :
    (∀ v e, c.ValueForPath response (envelopeBodyPath ++ ".Device.Network") = (v, some e) →
      GetCapabilities p c device = (DeviceCapabilities.zero, some e)) ∧
    (∀ n v e, c.ValueForPath response (envelopeBodyPath ++ ".Device.Network") = (n, none) →
      c.ValueForPath response (envelopeBodyPath ++ ".Events") = (v, some e) →
      GetCapabilities p c device = (DeviceCapabilities.zero, some e)) ∧
    (∀ n ev v e, c.ValueForPath response (envelopeBodyPath ++ ".Device.Network") = (n, none) →
      c.ValueForPath response (envelopeBodyPath ++ ".Events") = (ev, none) →
      c.ValueForPath response (envelopeBodyPath ++ ".Media.StreamingCapabilities") = (v, some e) →
      GetCapabilities p c device = (DeviceCapabilities.zero, some e)) ∧
    (∀ n ev st, c.ValueForPath response (envelopeBodyPath ++ ".Device.Network") = (n, none) →
      c.ValueForPath response (envelopeBodyPath ++ ".Events") = (ev, none) →
      c.ValueForPath response (envelopeBodyPath ++ ".Media.StreamingCapabilities") = (st, none) →
      GetCapabilities p c device =
        ({ Network := readNetCap p n, Events := some (readEventsCap p ev),
           Streaming := some (readStreamingCap p st) }, none)) ∧
    (∀ v, asMap v = none →
      readNetCap p v = NetworkCapabilities.zero ∧ readEventsCap p v = [] ∧
      readStreamingCap p v = []) := by
  simp only [requestOf, capabilitiesBody] at hsend
  refine ⟨fun v e h1 => ?_, fun n v e h1 h2 => ?_, fun n ev v e h1 h2 h3 => ?_,
    fun n ev st h1 h2 h3 => ?_, fun v hv => ?_⟩
  · unfold GetCapabilities; simp only [hsend, h1]
  · unfold GetCapabilities; simp only [hsend, h1, h2]
  · unfold GetCapabilities; simp only [hsend, h1, h2, h3]
  · unfold GetCapabilities; simp only [hsend, h1, h2, h3]
  · simp [readNetCap, readEventsCap, readStreamingCap, hv]

/-- C5, as the code has it, on two documents: one with the three parts, whose record is
assembled, and one without `Events`, which gives the zero record and the not-found error. -/
theorem getCapabilities_lookups_witness :
    GetCapabilities platform64 (docCollaborators capsDoc) sampleDevice =
      ({ Network := ⟨true, false, true, true⟩,
         Events := some [("PullPointSupport", true)],
         Streaming := some [("RTP RTSP TCP", true), ("RTPMulticast", false)] }, none) ∧
    GetCapabilities platform64 (docCollaborators capsDocNoEvents) sampleDevice =
      (DeviceCapabilities.zero, some Error.PathNotFound) :=
  ⟨(getCapabilities_lookups platform64 (docCollaborators capsDoc) sampleDevice capsDoc rfl).2.2.2.1
      _ _ _ rfl rfl rfl,
   (getCapabilities_lookups platform64 (docCollaborators capsDocNoEvents) sampleDevice
      capsDocNoEvents rfl).2.1 _ _ _ rfl rfl⟩

/-- C5 fails as stated: in `capsDocNoEvents` the container
`Envelope.Body.GetCapabilitiesResponse.Capabilities` resolves and its sub-field `Events` is
absent, and `GetCapabilities` returns the not-found error with the zero record, not a record
with an empty events part and no error. -/
theorem getCapabilities_missing_events_is_error :
    (specValueForPath (fun _ _ => none) capsDocNoEvents envelopeBodyPath).2 = none ∧
    (specValueForPath (fun _ _ => none) capsDocNoEvents (envelopeBodyPath ++ ".Device.Network")).2
      = none ∧
    (specValueForPath (fun _ _ => none) capsDocNoEvents
      (envelopeBodyPath ++ ".Media.StreamingCapabilities")).2 = none ∧
    (specValueForPath (fun _ _ => none) capsDocNoEvents (envelopeBodyPath ++ ".Events")).2
      = some Error.PathNotFound ∧
    (GetCapabilities platform64 (docCollaborators capsDocNoEvents) sampleDevice).2
      = some Error.PathNotFound ∧
    (GetCapabilities platform64 (docCollaborators capsDocNoEvents) sampleDevice).1
      = DeviceCapabilities.zero := by
  refine ⟨by rfl, by rfl, by rfl, by rfl, by rfl, by rfl⟩

/-- C6 does not hold of the code: in `timeOnlyDoc` the `UTCDateTime` mapping has a `Time`
sub-mapping with `Hour`, `Minute`, `Second` equal to `12`, `34`, `56` and no `Date`
sub-mapping; `interfaceToInt` of the three keys is 12, 34 and 56, and `GetSystemDateAndTime`
returns the time `0:0:0`.  With a `Date` sub-mapping next to the same `Time` (`dateAndTimeDoc`)
the time returned is `12:34:56`.  In general the time read under `UTCDateTime` or
`LocalDateTime` is the zero time whenever the `Date` sub-mapping is missing. -/
theorem getSystemDateAndTime_time_needs_date :
    (∀ (p : Platform) (mapInfo dateTimeMap : List (String × Value)) (key : String),
      asMap (mapIndex mapInfo key) = some dateTimeMap →
      asMap (mapIndex dateTimeMap "Date") = none →
      (readDateTime p mapInfo key).2 = Time.zero) ∧
    interfaceToInt platform64 (Value.str "12") = 12 ∧
    interfaceToInt platform64 (Value.str "34") = 34 ∧
    interfaceToInt platform64 (Value.str "56") = 56 ∧
    (GetSystemDateAndTime platform64 (docCollaborators timeOnlyDoc) sampleDevice).2 = none ∧
    (GetSystemDateAndTime platform64 (docCollaborators timeOnlyDoc) sampleDevice).1.UTCDateTime.Time
      = ⟨0, 0, 0⟩ ∧
    (GetSystemDateAndTime platform64 (docCollaborators timeOnlyDoc) sampleDevice).1.DateTimeType
      = "NTP" ∧
    (GetSystemDateAndTime platform64 (docCollaborators dateAndTimeDoc) sampleDevice).1.UTCDateTime
      = ⟨⟨12, 34, 56⟩, ⟨2024, 2, 29⟩⟩ := by
  refine ⟨fun p mapInfo dateTimeMap key h1 h2 => ?_,
    by rfl, by rfl, by rfl, by rfl, by rfl, by rfl, by rfl⟩
  unfold readDateTime
  simp only [h1, h2]

/-! ## Go maps -/

theorem mapGet_mapSet_self {β : Type} (m : List (String × β)) (k : String) (v : β) :
    mapGet (mapSet m k v) k = some v := by
  induction m with
  | nil => simp [mapSet, mapGet]
  | cons kv rest ih =>
    obtain ⟨k', v'⟩ := kv
    unfold mapSet
    split_ifs with h
    · simp [mapGet, h]
    · simp [mapGet, h, ih]

theorem mapGet_mapSet_ne {β : Type} (m : List (String × β)) (k k' : String) (v : β)
    (hne : k' ≠ k) : mapGet (mapSet m k v) k' = mapGet m k' := by
  induction m with
  | nil => simp [mapSet, mapGet, Ne.symm hne]
  | cons kv rest ih =>
    obtain ⟨k0, v0⟩ := kv
    unfold mapSet
    split_ifs with h
    · subst h
      simp [mapGet, Ne.symm hne]
    · by_cases h0 : k0 = k'
      · simp [mapGet, h0]
      · simp [mapGet, h0, ih]

theorem writeEntries_cons {α β : Type} (f : α → Option (String × β)) (acc : List (String × β))
    (kv : α) (l : List α) :
    writeEntries f acc (kv :: l) =
      writeEntries f (match f kv with
        | none => acc
        | some e => mapSet acc e.1 e.2) l := rfl

theorem writeEntries_untouched {α β : Type} (f : α → Option (String × β)) (key : String)
    (l : List α) (acc : List (String × β))
    (h : ∀ kv ∈ l, ∀ e, f kv = some e → e.1 ≠ key) :
    mapGet (writeEntries f acc l) key = mapGet acc key := by
  induction l generalizing acc with
  | nil => rfl
  | cons kv rest ih =>
    rw [writeEntries_cons, ih _ (fun kv' hkv' => h kv' (List.mem_cons_of_mem _ hkv'))]
    cases hf : f kv with
    | none => rfl
    | some e =>
      exact mapGet_mapSet_ne acc e.1 key e.2 (Ne.symm (h kv (List.mem_cons_self _ _) e hf))

theorem writeEntries_present {α β : Type} (f : α → Option (String × β)) (key : String)
    (l : List α) (acc : List (String × β))
    (h : (∃ b, mapGet acc key = some b) ∨ ∃ kv ∈ l, ∃ b, f kv = some (key, b)) :
    ∃ b, mapGet (writeEntries f acc l) key = some b := by
  induction l generalizing acc with
  | nil =>
    rcases h with h | ⟨kv, hkv, _⟩
    · exact h
    · cases hkv
  | cons kv rest ih =>
    rw [writeEntries_cons]
    apply ih
    rcases h with ⟨b, hb⟩ | ⟨kv', hkv', b, hb⟩
    · left
      cases hf : f kv with
      | none => exact ⟨b, hb⟩
      | some e =>
        by_cases he : key = e.1
        · subst he; exact ⟨e.2, mapGet_mapSet_self acc e.1 e.2⟩
        · exact ⟨b, by simp only []; rw [mapGet_mapSet_ne acc e.1 key e.2 he]; exact hb⟩
    · rcases List.mem_cons.1 hkv' with rfl | hmem
      · left
        rw [hb]
        exact ⟨b, mapGet_mapSet_self acc key b⟩
      · right; exact ⟨kv', hmem, b, hb⟩

theorem writeEntries_agree {α β : Type} (f : α → Option (String × β)) (key : String) (b : β)
    (l : List α) (acc : List (String × β))
    (hex : ∃ kv ∈ l, ∃ b', f kv = some (key, b'))
    (hall : ∀ kv ∈ l, ∀ b', f kv = some (key, b') → b' = b) :
    mapGet (writeEntries f acc l) key = some b := by
  induction l generalizing acc with
  | nil => obtain ⟨kv, hkv, _⟩ := hex; cases hkv
  | cons kv rest ih =>
    rw [writeEntries_cons]
    by_cases hrest : ∃ kv' ∈ rest, ∃ b', f kv' = some (key, b')
    · exact ih _ hrest (fun kv' hkv' => hall kv' (List.mem_cons_of_mem _ hkv'))
    · obtain ⟨kv', hkv', b', hb'⟩ := hex
      rcases List.mem_cons.1 hkv' with rfl | hmem
      · have hb : b' = b := hall kv' (List.mem_cons_self _ _) b' hb'
        subst hb
        rw [writeEntries_untouched f key rest _ ?_, hb']
        · exact mapGet_mapSet_self acc key b'
        · intro kv'' hkv'' e he hk
          exact hrest ⟨kv'', hkv'', e.2, by rw [he, ← hk]⟩
      · exact absurd ⟨kv', hmem, b', hb'⟩ hrest

theorem writeEntries_origin {α β : Type} (f : α → Option (String × β)) (key : String) (b : β)
    (l : List α) (acc : List (String × β))
    (h : mapGet (writeEntries f acc l) key = some b) :
    mapGet acc key = some b ∨ ∃ kv ∈ l, f kv = some (key, b) := by
  induction l generalizing acc with
  | nil => exact Or.inl h
  | cons kv rest ih =>
    rw [writeEntries_cons] at h
    rcases ih _ h with h1 | ⟨kv', hkv', hf'⟩
    · cases hf : f kv with
      | none => rw [hf] at h1; exact Or.inl h1
      | some e =>
        rw [hf] at h1
        by_cases he : key = e.1
        · subst he
          rw [mapGet_mapSet_self] at h1
          right
          refine ⟨kv, List.mem_cons_self _ _, ?_⟩
          rw [hf]
          cases h1; rfl
        · rw [mapGet_mapSet_ne acc e.1 key e.2 he] at h1
          exact Or.inl h1
    · exact Or.inr ⟨kv', List.mem_cons_of_mem _ hkv', hf'⟩

theorem value_unique_of_nodup_keys {β : Type} (m : List (String × β))
    (hnd : (m.map Prod.fst).Nodup) (k : String) (v v' : β)
    (h : (k, v) ∈ m) (h' : (k, v') ∈ m) : v = v' := by
  induction m with
  | nil => cases h
  | cons kv rest ih =>
    simp only [List.map_cons, List.nodup_cons] at hnd
    rcases List.mem_cons.1 h with rfl | hm
    · rcases List.mem_cons.1 h' with heq | hm'
      · cases heq; rfl
      · exact absurd (List.mem_map_of_mem Prod.fst hm') hnd.1
    · rcases List.mem_cons.1 h' with rfl | hm'
      · exact absurd (List.mem_map_of_mem Prod.fst hm) hnd.1
      · exact ih hnd.2 hm hm'

theorem readEventsCap_eq (p : Platform) (m : List (String × Value)) :
    readEventsCap p (Value.map m) = writeEntries (eventsEntry p) [] m := by
  unfold readEventsCap writeEntries
  simp only [asMap]
  congr 1
  funext acc kv
  unfold eventsStep eventsEntry
  split_ifs <;> rfl

theorem readStreamingCap_eq (p : Platform) (m : List (String × Value)) :
    readStreamingCap p (Value.map m) = writeEntries (streamingEntry p) [] m := by
  unfold readStreamingCap writeEntries
  simp only [asMap]
  congr 1

/-! ## strings.Replace -/

theorem replaceLoop_underscore (l : List Char) :
    replaceLoop ['_'] [' '] none 0 l = underscoresToSpaces l := by
  induction l with
  | nil => rfl
  | cons c cs ih =>
    unfold replaceLoop underscoresToSpaces
    by_cases hc : c = '_'
    · subst hc
      simp [List.isPrefixOf]
      exact ih
    · have : ¬ ('_' = c) := fun h => hc h.symm
      simp [List.isPrefixOf, hc, this]
      exact ih

theorem Replace_underscore (k : String) :
    Replace k "_" " " (-1) = String.mk (underscoresToSpaces k.data) := by
  unfold Replace
  have h1 : ¬ (("_" : String) = " " ∨ (-1 : Int) = 0) := by decide
  have h2 : ¬ (("_" : String).data = []) := by decide
  rw [if_neg h1]
  simp only [h2, if_false]
  have h3 : (if (-1 : Int) < 0 then (none : Option Nat) else some (Int.toNat (-1))) = none := by
    decide
  rw [h3]
  exact congrArg String.mk (replaceLoop_underscore k.data)

theorem replaceLoop_spent (old new : List Char) (l : List Char) :
    replaceLoop old new (some 0) 0 l = l := by
  induction l with
  | nil => rfl
  | cons c cs ih =>
    unfold replaceLoop
    simp [ih]

theorem Replace_WS_prefix (rest : String) : Replace ("WS" ++ rest) "WS" "" 1 = rest := by
  unfold Replace
  have h1 : ¬ (("WS" : String) = "" ∨ (1 : Int) = 0) := by decide
  have h2 : ¬ (("WS" : String).data = []) := by decide
  rw [if_neg h1]
  simp only [h2, if_false]
  have h3 : (if (1 : Int) < 0 then (none : Option Nat) else some (Int.toNat 1)) = some 1 := by
    decide
  rw [h3]
  have h4 : ("WS" ++ rest).data = 'W' :: 'S' :: rest.data := by
    simp [String.data_append]
  rw [h4]
  have h5 : replaceLoop ("WS" : String).data ("" : String).data (some 1) 0
      ('W' :: 'S' :: rest.data) = rest.data := by
    show replaceLoop ['W', 'S'] [] (some 1) 0 ('W' :: 'S' :: rest.data) = rest.data
    unfold replaceLoop
    simp [List.isPrefixOf]
    unfold replaceLoop
    exact replaceLoop_spent _ _ _
  rw [h5]

theorem ToLower_WS_ne_xaddr (p : Platform) (rest : String) :
    ToLower p ("WS" ++ rest) ≠ "xaddr" := by
  intro h
  have h4 : ("WS" ++ rest).data = 'W' :: 'S' :: rest.data := by
    simp [String.data_append]
  unfold ToLower at h
  simp only [h4] at h
  split_ifs at h with h1 h2
  · have := congrArg String.data h
    rw [h4] at this
    simp at this
  · have := congrArg String.data h
    simp [asciiToLower] at this
  · have := congrArg String.data h
    simp [runeToLower] at this

theorem underscoresToSpaces_length (l : List Char) :
    (underscoresToSpaces l).length = l.length := by
  simp [underscoresToSpaces]

theorem underscoresToSpaces_no_underscore (l : List Char) : '_' ∉ underscoresToSpaces l := by
  intro h
  simp only [underscoresToSpaces, List.mem_map] at h
  obtain ⟨c, _, hc⟩ := h
  split_ifs at hc with h1
  · exact absurd hc (by decide)
  · exact h1 hc

theorem underscoresToSpaces_inj (l l' : List Char) (hl : ' ' ∉ l) (hl' : ' ' ∉ l')
    (h : underscoresToSpaces l = underscoresToSpaces l') : l = l' := by
  induction l generalizing l' with
  | nil =>
    cases l' with
    | nil => rfl
    | cons c cs => simp [underscoresToSpaces] at h
  | cons c cs ih =>
    cases l' with
    | nil => simp [underscoresToSpaces] at h
    | cons c' cs' =>
      simp only [underscoresToSpaces, List.map_cons, List.cons.injEq] at h
      simp only [List.mem_cons, not_or] at hl hl'
      have hcs : cs = cs' := ih cs' hl.2 hl'.2 h.2
      have hc : c = c' := by
        have h1 := h.1
        split_ifs at h1 with a b b
        · rw [a, b]
        · exact absurd h1 hl'.1
        · exact absurd h1.symm hl.1
        · exact h1
      rw [hc, hcs]

/-! ## Capability maps -/

/-- C7 fails as stated when another key is turned into the same output key: in the mapping
`{WSA: "true", A: "false"}` the key `WSA` begins with `WS` and does not lower-case to `xaddr`,
and its output key is `A`.  Traversed in this order the output is `{A: false}`: the value at
`A` is not `interfaceToBool` of the value of `WSA`, which is true.  Traversed in the other
order the output is `{A: true}`. -/
theorem eventsCap_collision :
    (("WS" : String).data <+: ("WSA" : String).data) ∧
    ToLower platform64 "WSA" ≠ "xaddr" ∧
    Replace "WSA" "WS" "" 1 = "A" ∧
    interfaceToBool platform64 (Value.str "true") = true ∧
    readEventsCap platform64
      (Value.map [("WSA", Value.str "true"), ("A", Value.str "false")]) = [("A", false)] ∧
    mapGet (readEventsCap platform64
      (Value.map [("WSA", Value.str "true"), ("A", Value.str "false")])) "A"
      ≠ some (interfaceToBool platform64 (Value.str "true")) ∧
    readEventsCap platform64
      (Value.map [("A", Value.str "false"), ("WSA", Value.str "true")]) = [("A", true)] := by
  refine ⟨by decide, by decide, by rfl, by rfl, by rfl, by decide, by rfl⟩

/-- C7, as the code has it: in the events loop of `GetCapabilities`, a key that lower-cases to
`xaddr` writes nothing, and a key `WS` followed by `rest` writes the entry `rest` with the value
`interfaceToBool` of the key's value.  For the map built from a mapping `m`: every key of `m`
that begins with `WS` has its key without the `WS` in the output; the value there is
`interfaceToBool` of that key's value provided no other key of `m` is turned into the same
output key; and every entry of the output is the entry written for some key of `m` that does
not lower-case to `xaddr`.  The mapping `{WSPullPoint: "true", XAddr: "http://..."}` gives
exactly `{PullPoint: true}`, in either order of traversal. -/
theorem eventsCap_normalization (p : Platform) (m : List (String × Value)) :
    (∀ acc k v, ToLower p k = "xaddr" → eventsStep p acc (k, v) = acc) ∧
    (∀ acc rest v,
      eventsStep p acc ("WS" ++ rest, v) = mapSet acc rest (interfaceToBool p v)) ∧
    (∀ rest v, ("WS" ++ rest, v) ∈ m →
      ∃ b, mapGet (readEventsCap p (Value.map m)) rest = some b) ∧
    (∀ rest v, ("WS" ++ rest, v) ∈ m → (m.map Prod.fst).Nodup →
      (∀ kv ∈ m, ToLower p kv.1 ≠ "xaddr" → Replace kv.1 "WS" "" 1 = rest →
        kv.1 = "WS" ++ rest) →
      mapGet (readEventsCap p (Value.map m)) rest = some (interfaceToBool p v)) ∧
    (∀ key b, mapGet (readEventsCap p (Value.map m)) key = some b →
      ∃ kv ∈ m, ToLower p kv.1 ≠ "xaddr" ∧ Replace kv.1 "WS" "" 1 = key ∧
        interfaceToBool p kv.2 = b) ∧
    readEventsCap p (Value.map [("WSPullPoint", Value.str "true"),
      ("XAddr", Value.str "http://192.0.2.1/onvif/event_service")]) = [("PullPoint", true)] ∧
    readEventsCap p (Value.map [("XAddr", Value.str "http://192.0.2.1/onvif/event_service"),
      ("WSPullPoint", Value.str "true")]) = [("PullPoint", true)] := by
  have hentry : ∀ rest v, eventsEntry p ("WS" ++ rest, v) = some (rest, interfaceToBool p v) := by
    intro rest v
    unfold eventsEntry
    rw [if_neg (ToLower_WS_ne_xaddr p rest), Replace_WS_prefix]
  refine ⟨fun acc k v h => ?_, fun acc rest v => ?_, fun rest v hm => ?_,
    fun rest v hm hnd hno => ?_, fun key b h => ?_, by rfl, by rfl⟩
  · unfold eventsStep; rw [if_pos h]
  · unfold eventsStep
    rw [if_neg (ToLower_WS_ne_xaddr p rest), Replace_WS_prefix]
  · rw [readEventsCap_eq]
    exact writeEntries_present _ rest m [] (Or.inr ⟨_, hm, _, hentry rest v⟩)
  · rw [readEventsCap_eq]
    refine writeEntries_agree _ rest _ m [] ⟨_, hm, _, hentry rest v⟩ ?_
    intro kv hkv b' hb'
    unfold eventsEntry at hb'
    split_ifs at hb' with hx
    simp only [Option.some.injEq, Prod.mk.injEq] at hb'
    have hk := hno kv hkv hx hb'.1
    have hv : kv.2 = v :=
      value_unique_of_nodup_keys m hnd ("WS" ++ rest) kv.2 v (by rw [← hk]; exact hkv) hm
    rw [← hb'.2, hv]
  · rw [readEventsCap_eq] at h
    rcases writeEntries_origin _ key b m [] h with h0 | ⟨kv, hkv, hf⟩
    · simp [mapGet] at h0
    · unfold eventsEntry at hf
      split_ifs at hf with hx
      simp only [Option.some.injEq, Prod.mk.injEq] at hf
      exact ⟨kv, hkv, hx, hf.1, hf.2⟩

/-- C7, as the code has it, on the mapping `{WSSubscriptionPolicySupport: "TRUE",
xaddr: "http://...", WSPullPointSupport: "false"}`, in which no two keys collide: the two `WS` keys are in the output without their `WS`, with the
value of their key, and the output has exactly these two entries. -/
theorem eventsCap_normalization_witness :
    mapGet (readEventsCap platform64 (Value.map [
      ("WSSubscriptionPolicySupport", Value.str "TRUE"), ("xaddr", Value.str "http://192.0.2.1/"),
      ("WSPullPointSupport", Value.str "false")])) "SubscriptionPolicySupport" = some true ∧
    readEventsCap platform64 (Value.map [
      ("WSSubscriptionPolicySupport", Value.str "TRUE"), ("xaddr", Value.str "http://192.0.2.1/"),
      ("WSPullPointSupport", Value.str "false")])
      = [("SubscriptionPolicySupport", true), ("PullPointSupport", false)] :=
  ⟨(eventsCap_normalization platform64 [
      ("WSSubscriptionPolicySupport", Value.str "TRUE"), ("xaddr", Value.str "http://192.0.2.1/"),
      ("WSPullPointSupport", Value.str "false")]).2.2.2.1
      "SubscriptionPolicySupport" (Value.str "TRUE") (by simp) (by decide)
      (by
        intro kv hkv hx hr
        simp only [List.mem_cons, List.mem_singleton, List.not_mem_nil, or_false] at hkv
        rcases hkv with rfl | rfl | rfl
        · rfl
        · exact absurd rfl hx
        · revert hr; decide),
   by rfl⟩

/-- The entry of one key in the output of the streaming loop: the output key is the key with
its underscores replaced by spaces, it is present, and it holds the value of the key when no key
of the mapping contains a space, or when no other key is turned into the same output key. -/
theorem streamingCap_entry (p : Platform) (m : List (String × Value)) (k : String)
    (v : Value) (hnd : (m.map Prod.fst).Nodup) (hk : (k, v) ∈ m) :
    (Replace k "_" " " (-1)).data = underscoresToSpaces k.data ∧
    (Replace k "_" " " (-1)).data.length = k.data.length ∧
    '_' ∉ (Replace k "_" " " (-1)).data ∧
    (∃ b, mapGet (readStreamingCap p (Value.map m)) (Replace k "_" " " (-1)) = some b) ∧
    ((∀ kv ∈ m, ' ' ∉ kv.1.data) ∨
      (∀ kv ∈ m, Replace kv.1 "_" " " (-1) = Replace k "_" " " (-1) → kv.1 = k) →
      mapGet (readStreamingCap p (Value.map m)) (Replace k "_" " " (-1))
        = some (interfaceToBool p v)) := by
  have hentry : streamingEntry p (k, v) = some (Replace k "_" " " (-1), interfaceToBool p v) :=
    rfl
  refine ⟨by rw [Replace_underscore], ?_, ?_, ?_, fun hno => ?_⟩
  · rw [Replace_underscore]; exact underscoresToSpaces_length k.data
  · rw [Replace_underscore]; exact underscoresToSpaces_no_underscore k.data
  · rw [readStreamingCap_eq]
    exact writeEntries_present _ _ m [] (Or.inr ⟨_, hk, _, hentry⟩)
  · have hno' : ∀ kv ∈ m, Replace kv.1 "_" " " (-1) = Replace k "_" " " (-1) → kv.1 = k := by
      rcases hno with hsp | h
      · intro kv hkv heq
        rw [Replace_underscore, Replace_underscore] at heq
        have hdata : kv.1.data = k.data :=
          underscoresToSpaces_inj _ _ (hsp kv hkv) (hsp (k, v) hk) (congrArg String.data heq)
        exact String.ext hdata
      · exact h
    rw [readStreamingCap_eq]
    refine writeEntries_agree _ _ _ m [] ⟨_, hk, _, hentry⟩ ?_
    intro kv hkv b' hb'
    simp only [streamingEntry, Option.some.injEq, Prod.mk.injEq] at hb'
    have hkk := hno' kv hkv hb'.1
    have hv : kv.2 = v :=
      value_unique_of_nodup_keys m hnd k kv.2 v (by rw [← hkk]; exact hkv) hk
    rw [← hb'.2, hv]

/-- C8: for every resolved `StreamingCapabilities` mapping `m` and every key `k` of it with value
`v`, the output of the streaming loop of `GetCapabilities` contains the key obtained from `k` by
replacing every underscore with a space, which has the length of `k` and no underscore left,
mapped to `interfaceToBool` of `v`.  The mapping is a decoded one: its keys are distinct, as
in every Go map, and they are element names of the reply, which contain no space. -/
theorem streamingCap_normalization (p : Platform) (m : List (String × Value)) (k : String)
    (v : Value) (hnd : (m.map Prod.fst).Nodup) (hnames : ∀ kv ∈ m, ' ' ∉ kv.1.data)
    (hk : (k, v) ∈ m) :
    mapGet (readStreamingCap p (Value.map m)) (Replace k "_" " " (-1))
      = some (interfaceToBool p v) ∧
    (Replace k "_" " " (-1)).data = underscoresToSpaces k.data ∧
    (Replace k "_" " " (-1)).data.length = k.data.length ∧
    '_' ∉ (Replace k "_" " " (-1)).data := by
  have h := streamingCap_entry p m k v hnd hk
  exact ⟨h.2.2.2.2 (Or.inl hnames), h.1, h.2.1, h.2.2.1⟩

/-- C8 on the mapping `{RTP_Multicast: "false"}`, whose output is `{"RTP Multicast": false}`, and
on a mapping with three keys. -/
theorem streamingCap_normalization_witness :
    mapGet (readStreamingCap platform64 (Value.map [("RTP_Multicast", Value.str "false")]))
      "RTP Multicast" = some false ∧
    readStreamingCap platform64 (Value.map [("RTP_Multicast", Value.str "false")])
      = [("RTP Multicast", false)] ∧
    mapGet (readStreamingCap platform64 (Value.map [("RTPMulticast", Value.str "false"),
      ("RTP_TCP", Value.str "true"), ("RTP_RTSP_TCP", Value.str "TRUE")]))
      "RTP RTSP TCP" = some true :=
  ⟨(streamingCap_normalization platform64 [("RTP_Multicast", Value.str "false")]
      "RTP_Multicast" (Value.str "false") (by decide)
      (by
        intro kv hkv
        simp only [List.mem_singleton] at hkv
        subst hkv
        decide)
      (by simp)).1,
   by rfl,
   (streamingCap_normalization platform64 [("RTPMulticast", Value.str "false"),
      ("RTP_TCP", Value.str "true"), ("RTP_RTSP_TCP", Value.str "TRUE")]
      "RTP_RTSP_TCP" (Value.str "TRUE") (by decide)
      (by
        intro kv hkv
        simp only [List.mem_cons, List.mem_singleton, List.not_mem_nil, or_false] at hkv
        rcases hkv with rfl | rfl | rfl <;> decide)
      (by simp)).1⟩

/-! ## strconv.Atoi -/

theorem wrapInt_64 (x : Int) : wrapInt 64 x = (x + 9223372036854775808) % 18446744073709551616 - 9223372036854775808 := by
  unfold wrapInt; norm_num

theorem wrapInt_32 (x : Int) : wrapInt 32 x = (x + 2147483648) % 4294967296 - 2147483648 := by
  unfold wrapInt; norm_num

theorem digitsValue_cons (n c : Nat) (ds : List Nat) :
    digitsValue n (c :: ds) = digitsValue (n * 10 + (c - 48)) ds := rfl

theorem digitsValue_append (n : Nat) (xs ys : List Nat) :
    digitsValue n (xs ++ ys) = digitsValue (digitsValue n xs) ys := by
  simp [digitsValue, List.foldl_append]

theorem digitsValue_ge (n : Nat) (ds : List Nat) : n ≤ digitsValue n ds := by
  induction ds generalizing n with
  | nil => exact Nat.le_refl _
  | cons c cs ih =>
    rw [digitsValue_cons]
    exact Nat.le_trans (by omega) (ih _)

theorem digitsValue_lt_pow (n : Nat) (ds : List Nat) (hd : ∀ c ∈ ds, isDigitByte c = true) :
    digitsValue n ds < (n + 1) * 10 ^ ds.length := by
  induction ds generalizing n with
  | nil => simp [digitsValue]
  | cons c cs ih =>
    rw [digitsValue_cons]
    have hc : 48 ≤ c ∧ c ≤ 57 := by
      have := hd c (List.mem_cons_self _ _)
      simpa [isDigitByte] using this
    have h := ih (n * 10 + (c - 48)) (fun c' hc' => hd c' (List.mem_cons_of_mem _ hc'))
    have hle : (n * 10 + (c - 48) + 1) * 10 ^ cs.length ≤ (n + 1) * 10 ^ (c :: cs).length := by
      rw [List.length_cons, pow_succ]
      have : n * 10 + (c - 48) + 1 ≤ (n + 1) * 10 := by omega
      calc (n * 10 + (c - 48) + 1) * 10 ^ cs.length
          ≤ ((n + 1) * 10) * 10 ^ cs.length := Nat.mul_le_mul_right _ this
        _ = (n + 1) * (10 ^ cs.length * 10) := by ring
    exact Nat.lt_of_lt_of_le h hle

theorem parseUintLoop_digits (maxVal : Nat) (hmax : maxVal < 2 ^ 64) (ds rest : List Nat)
    (n : Nat) (hd : ∀ c ∈ ds, isDigitByte c = true) (hv : digitsValue n ds ≤ maxVal) :
    parseUintLoop maxVal (ds ++ rest) n = parseUintLoop maxVal rest (digitsValue n ds) := by
  induction ds generalizing n with
  | nil => rfl
  | cons c cs ih =>
    have hc : 48 ≤ c ∧ c ≤ 57 := by
      have := hd c (List.mem_cons_self _ _)
      simpa [isDigitByte] using this
    rw [digitsValue_cons] at hv ⊢
    have hge := digitsValue_ge (n * 10 + (c - 48)) cs
    have hlt : n * 10 + (c - 48) < 2 ^ 64 := by omega
    norm_num at hlt hmax
    rw [List.cons_append, parseUintLoop]
    simp only [hc, and_self, if_true]
    norm_num
    rw [if_neg (by omega), Nat.mod_eq_of_lt (by omega), if_neg (by omega)]
    exact ih _ (fun c' hc' => hd c' (List.mem_cons_of_mem _ hc')) hv

theorem parseUintLoop_overflow (maxVal : Nat) (ds rest : List Nat)
    (n : Nat) (hd : ∀ c ∈ ds, isDigitByte c = true) (hn : n ≤ maxVal)
    (hv : maxVal < digitsValue n ds) :
    parseUintLoop maxVal (ds ++ rest) n = (maxVal, some NumError.ErrRange) := by
  induction ds generalizing n with
  | nil => simp [digitsValue] at hv; omega
  | cons c cs ih =>
    have hc : 48 ≤ c ∧ c ≤ 57 := by
      have := hd c (List.mem_cons_self _ _)
      simpa [isDigitByte] using this
    rw [digitsValue_cons] at hv
    rw [List.cons_append, parseUintLoop]
    simp only [hc, and_self, if_true]
    norm_num
    intro h1 h2 h3
    have h4 : (n * 10 + (c - 48)) % 18446744073709551616 = n * 10 + (c - 48) := by omega
    rw [h4] at h3 ⊢
    exact ih _ (fun c' hc' => hd c' (List.mem_cons_of_mem _ hc')) h3 hv

theorem parseUintLoop_nondigit (maxVal : Nat) (c : Nat) (rest : List Nat) (n : Nat)
    (hc : isDigitByte c = false) :
    parseUintLoop maxVal (c :: rest) n = (0, some NumError.ErrSyntax) := by
  have hc' : ¬ (48 ≤ c ∧ c ≤ 57) := by simpa [isDigitByte] using hc
  rw [parseUintLoop]
  simp only [hc', if_false]
  split_ifs <;> rfl


theorem dropWhile_head (l : List Nat) :
    l.dropWhile isDigitByte = [] ∨
      ∃ c r, l.dropWhile isDigitByte = c :: r ∧ isDigitByte c = false := by
  induction l with
  | nil => exact Or.inl rfl
  | cons c cs ih =>
    by_cases hc : isDigitByte c = true
    · rw [List.dropWhile_cons_of_pos hc]; exact ih
    · right
      have hc' : isDigitByte c = false := by simpa using hc
      exact ⟨c, cs, by rw [List.dropWhile_cons_of_neg hc], hc'⟩

theorem takeWhile_digits (l : List Nat) : ∀ c ∈ l.takeWhile isDigitByte, isDigitByte c = true :=
  fun _ hc => List.mem_takeWhile_imp hc

theorem maxVal_eq (w : Nat) (hw : w = 32 ∨ w = 64) :
    (2 ^ w % 2 ^ 64 + 2 ^ 64 - 1) % 2 ^ 64 = 2 ^ w - 1 := by
  rcases hw with rfl | rfl <;> norm_num

theorem maxVal_lt (w : Nat) (hw : w = 32 ∨ w = 64) : 2 ^ w - 1 < 2 ^ 64 := by
  rcases hw with rfl | rfl <;> norm_num

theorem ParseUint_overflow (w : Nat) (hw : w = 32 ∨ w = 64) (body : List Nat)
    (h : 2 ^ w - 1 < digitsValue 0 (body.takeWhile isDigitByte)) :
    ParseUint w body = (2 ^ w - 1, some NumError.ErrRange) := by
  have hne : body ≠ [] := by
    rintro rfl
    simp [digitsValue] at h
  unfold ParseUint
  rw [if_neg hne]
  simp only [maxVal_eq w hw]
  conv_lhs => rw [← List.takeWhile_append_dropWhile isDigitByte body]
  exact parseUintLoop_overflow _ _ _ 0 (takeWhile_digits body) (Nat.zero_le _) h

theorem ParseUint_bad_text (w : Nat) (hw : w = 32 ∨ w = 64) (body : List Nat)
    (h : digitsValue 0 (body.takeWhile isDigitByte) ≤ 2 ^ w - 1)
    (hs : body.takeWhile isDigitByte = [] ∨ body.dropWhile isDigitByte ≠ []) :
    ParseUint w body = (0, some NumError.ErrSyntax) := by
  unfold ParseUint
  by_cases hne : body = []
  · rw [if_pos hne]
  · rw [if_neg hne]
    simp only [maxVal_eq w hw]
    have hdrop : body.dropWhile isDigitByte ≠ [] := by
      rcases hs with hs | hs
      · intro hd
        have := List.takeWhile_append_dropWhile isDigitByte body
        rw [hs, hd] at this
        exact hne this.symm
      · exact hs
    rcases dropWhile_head body with hd | ⟨c, r, hd, hc⟩
    · exact absurd hd hdrop
    · conv_lhs => rw [← List.takeWhile_append_dropWhile isDigitByte body]
      rw [parseUintLoop_digits _ (maxVal_lt w hw) _ _ 0 (takeWhile_digits body) h, hd]
      exact parseUintLoop_nondigit _ c r _ hc

theorem ParseUint_number (w : Nat) (hw : w = 32 ∨ w = 64) (body : List Nat)
    (h : digitsValue 0 (body.takeWhile isDigitByte) ≤ 2 ^ w - 1)
    (hs : ¬ (body.takeWhile isDigitByte = [] ∨ body.dropWhile isDigitByte ≠ [])) :
    ParseUint w body = (digitsValue 0 (body.takeWhile isDigitByte), none) := by
  have hs1 : body.takeWhile isDigitByte ≠ [] := fun h => hs (Or.inl h)
  have hs2 : body.dropWhile isDigitByte = [] := by
    by_contra h; exact hs (Or.inr h)
  have hne : body ≠ [] := by
    rintro rfl
    exact hs1 rfl
  unfold ParseUint
  rw [if_neg hne]
  simp only [maxVal_eq w hw]
  conv_lhs => rw [← List.takeWhile_append_dropWhile isDigitByte body]
  rw [parseUintLoop_digits _ (maxVal_lt w hw) _ _ 0 (takeWhile_digits body) h, hs2]
  rfl


theorem splitSign_cons (c : Nat) (rest : List Nat) :
    splitSign (c :: rest) =
      (decide (c = 45), if c = 43 then rest else if c = 45 then rest else c :: rest) := by
  unfold splitSign
  by_cases h1 : c = 43
  · subst h1; simp
  · by_cases h2 : c = 45
    · subst h2; simp
    · simp [h1, h2]

theorem wrapInt_zero (w : Nat) (hw : w = 32 ∨ w = 64) : wrapInt w 0 = 0 := by
  rcases hw with rfl | rfl
  · rw [wrapInt_32]; norm_num
  · rw [wrapInt_64]; norm_num

theorem ParseInt_closed_nil (w : Nat) (hw : w = 32 ∨ w = 64)  :
    wrapInt w (ParseInt w []).1 = atoiClosedForm w [] := by
  have h1 : (ParseInt w []).1 = 0 := rfl
  have h2 : atoiClosedForm w [] = 0 := by
    unfold atoiClosedForm
    simp [splitSign, digitsValue]
  rw [h1, h2, wrapInt_zero w hw]

theorem ParseInt_of_uint (w c : Nat) (rest : List Nat) (un : Nat) (e : Option NumError)
    (he : e ≠ some NumError.ErrSyntax)
    (h : ParseUint w (if c = 43 then rest else if c = 45 then rest else c :: rest) = (un, e)) :
    (ParseInt w (c :: rest)).1 =
      if decide (c = 45) = false ∧ un ≥ 2 ^ (w - 1) % 2 ^ 64 then
        wrapInt 64 (((2 ^ (w - 1) % 2 ^ 64 : Nat) : Int) - 1)
      else if decide (c = 45) = true ∧ un > 2 ^ (w - 1) % 2 ^ 64 then
        wrapInt 64 (- wrapInt 64 ((2 ^ (w - 1) % 2 ^ 64 : Nat) : Int))
      else if decide (c = 45) = true then wrapInt 64 (- wrapInt 64 (un : Int))
      else wrapInt 64 (un : Int) := by
  unfold ParseInt
  simp only
  rw [h]
  cases e with
  | none => simp only []; split_ifs <;> rfl
  | some x =>
    cases x with
    | ErrSyntax => exact absurd rfl he
    | ErrRange => simp only []; split_ifs <;> rfl

theorem ParseInt_bad_text (w c : Nat) (rest : List Nat)  (un : Nat)
    (h : ParseUint w (if c = 43 then rest else if c = 45 then rest else c :: rest)
      = (un, some NumError.ErrSyntax)) :
    (ParseInt w (c :: rest)).1 = 0 := by
  unfold ParseInt
  simp only
  rw [h]

theorem parseInt_finish (w : Nat) (hw : w = 32 ∨ w = 64) (neg : Bool) (un : Nat)
    (hun : un ≤ 2 ^ w - 1) :
    wrapInt w (if neg = false ∧ un ≥ 2 ^ (w - 1) % 2 ^ 64 then
        wrapInt 64 (((2 ^ (w - 1) % 2 ^ 64 : Nat) : Int) - 1)
      else if neg = true ∧ un > 2 ^ (w - 1) % 2 ^ 64 then
        wrapInt 64 (- wrapInt 64 ((2 ^ (w - 1) % 2 ^ 64 : Nat) : Int))
      else if neg = true then wrapInt 64 (- wrapInt 64 (un : Int))
      else wrapInt 64 (un : Int)) =
    if neg = true then (if un > 2 ^ (w - 1) then -(2 ^ (w - 1) : Int) else -(un : Int))
    else (if un ≥ 2 ^ (w - 1) then 2 ^ (w - 1) - 1 else (un : Int)) := by
  rcases hw with rfl | rfl
  · norm_num at hun ⊢
    cases neg
    · simp only [Bool.false_eq_true, false_and, if_false, true_and]
      split_ifs with h1
      · rw [wrapInt_64, wrapInt_32]; omega
      · rw [wrapInt_64, wrapInt_32]; omega
    · simp only [Bool.true_eq_false, false_and, if_false, true_and, if_true]
      split_ifs with h1
      · rw [wrapInt_64, wrapInt_64, wrapInt_32]; omega
      · rw [wrapInt_64, wrapInt_64, wrapInt_32]; omega
  · norm_num at hun ⊢
    cases neg
    · simp only [Bool.false_eq_true, false_and, if_false, true_and]
      split_ifs with h1
      · rw [wrapInt_64, wrapInt_64]; omega
      · rw [wrapInt_64, wrapInt_64]; omega
    · simp only [Bool.true_eq_false, false_and, if_false, true_and, if_true]
      split_ifs with h1
      · rw [wrapInt_64, wrapInt_64, wrapInt_64]; omega
      · rw [wrapInt_64, wrapInt_64, wrapInt_64]; omega

theorem ParseInt_closed (w : Nat) (hw : w = 32 ∨ w = 64) (s : List Nat) :
    wrapInt w (ParseInt w s).1 = atoiClosedForm w s := by
  cases s with
  | nil => exact ParseInt_closed_nil w hw
  | cons c rest =>
    unfold atoiClosedForm
    rw [splitSign_cons]
    simp only
    by_cases hov : 2 ^ w - 1 <
        digitsValue 0 ((if c = 43 then rest else if c = 45 then rest else c :: rest).takeWhile
          isDigitByte)
    · rw [if_pos hov,
        ParseInt_of_uint w c rest _ _ (by decide) (ParseUint_overflow w hw _ hov),
        parseInt_finish w hw _ _ (Nat.le_refl _)]
      have h1 : 2 ^ w - 1 > 2 ^ (w - 1) := by rcases hw with rfl | rfl <;> norm_num
      have h2 : 2 ^ w - 1 ≥ 2 ^ (w - 1) := Nat.le_of_lt h1
      rw [if_pos h1, if_pos h2]
    · rw [if_neg hov]
      have hle : digitsValue 0
          ((if c = 43 then rest else if c = 45 then rest else c :: rest).takeWhile isDigitByte)
          ≤ 2 ^ w - 1 := by omega
      by_cases hs : (if c = 43 then rest else if c = 45 then rest else c :: rest).takeWhile
            isDigitByte = [] ∨
          (if c = 43 then rest else if c = 45 then rest else c :: rest).dropWhile
            isDigitByte ≠ []
      · rw [if_pos hs, ParseInt_bad_text w c rest _ (ParseUint_bad_text w hw _ hle hs)]
        exact wrapInt_zero w hw
      · rw [if_neg hs,
          ParseInt_of_uint w c rest _ _ (by decide) (ParseUint_number w hw _ hle hs),
          parseInt_finish w hw _ _ hle]


theorem wrapInt_of_small (w : Nat) (hw : w = 32 ∨ w = 64) (x : Int)
    (h1 : -(2 ^ (w - 1) : Int) ≤ x) (h2 : x < 2 ^ (w - 1)) : wrapInt w x = x := by
  rcases hw with rfl | rfl
  · rw [wrapInt_32]; norm_num at h1 h2; omega
  · rw [wrapInt_64]; norm_num at h1 h2; omega

theorem atoiFastLoop_digits (w : Nat) (hw : w = 32 ∨ w = 64) (ds rest : List Nat) (n : Nat)
    (hd : ∀ c ∈ ds, isDigitByte c = true) (hv : digitsValue n ds < 2 ^ (w - 1)) :
    atoiFastLoop w (ds ++ rest) (n : Int) = atoiFastLoop w rest (digitsValue n ds : Nat) := by
  induction ds generalizing n with
  | nil => rfl
  | cons c cs ih =>
    have hc : 48 ≤ c ∧ c ≤ 57 := by
      have := hd c (List.mem_cons_self _ _)
      simpa [isDigitByte] using this
    rw [digitsValue_cons] at hv ⊢
    have hge := digitsValue_ge (n * 10 + (c - 48)) cs
    have hmod : (c + 256 - 48) % 256 = c - 48 := by omega
    rw [List.cons_append, atoiFastLoop]
    simp only [hmod]
    rw [if_neg (by omega)]
    have hcast : ((n : Int) * 10 + ((c - 48 : Nat) : Int)) = ((n * 10 + (c - 48) : Nat) : Int) := by
      push_cast; ring
    rw [hcast, wrapInt_of_small w hw _ (by
      have : (0 : Int) ≤ ((n * 10 + (c - 48) : Nat) : Int) := Int.natCast_nonneg _
      have : (0 : Int) < 2 ^ (w - 1) := by positivity
      omega) (by exact_mod_cast Nat.lt_of_le_of_lt hge hv)]
    exact ih _ (fun c' hc' => hd c' (List.mem_cons_of_mem _ hc')) hv

theorem atoiFastLoop_nondigit (w c : Nat) (rest : List Nat) (n : Int) (hlt : c < 256)
    (hc : isDigitByte c = false) : atoiFastLoop w (c :: rest) n = none := by
  have hc' : ¬ (48 ≤ c ∧ c ≤ 57) := by simpa [isDigitByte] using hc
  rw [atoiFastLoop]
  rw [if_pos (by omega)]


theorem digitsValue_small (w : Nat) (ds : List Nat) (hd : ∀ c ∈ ds, isDigitByte c = true)
    (hlen : (w = 32 ∧ ds.length < 10) ∨ (w = 64 ∧ ds.length < 19)) :
    digitsValue 0 ds < 2 ^ (w - 1) := by
  have h := digitsValue_lt_pow 0 ds hd
  rw [Nat.zero_add, Nat.one_mul] at h
  rcases hlen with ⟨rfl, hl⟩ | ⟨rfl, hl⟩
  · have : 10 ^ ds.length ≤ 10 ^ 9 := Nat.pow_le_pow_right (by norm_num) (by omega)
    norm_num at this ⊢
    omega
  · have : 10 ^ ds.length ≤ 10 ^ 18 := Nat.pow_le_pow_right (by norm_num) (by omega)
    norm_num at this ⊢
    omega

theorem fast_body_eq (c : Nat) (rest : List Nat) :
    (if c = 45 ∨ c = 43 then rest else c :: rest) =
      (if c = 43 then rest else if c = 45 then rest else c :: rest) := by
  by_cases h1 : c = 43
  · simp [h1]
  · by_cases h2 : c = 45
    · simp [h2]
    · simp [h1, h2]

theorem atoiFast_closed (w : Nat) (hw : w = 32 ∨ w = 64) (c : Nat) (body : List Nat)
    (sign : Prop) [Decidable sign]
    (hb : ∀ x ∈ body, x < 256)
    (hsign : ¬ sign → body ≠ [])
    (hlen : (w = 32 ∧ body.length < 10) ∨ (w = 64 ∧ body.length < 19)) :
    (if sign ∧ body.length < 1 then ((0 : Int), some NumError.ErrSyntax)
      else
        match atoiFastLoop w body 0 with
        | none => (0, some NumError.ErrSyntax)
        | some n => (if c = 45 then wrapInt w (- n) else n, none)).1 =
    (if digitsValue 0 (body.takeWhile isDigitByte) > 2 ^ w - 1 then
        (if decide (c = 45) = true then -(2 ^ (w - 1) : Int) else 2 ^ (w - 1) - 1)
      else if body.takeWhile isDigitByte = [] ∨ body.dropWhile isDigitByte ≠ [] then 0
      else if decide (c = 45) = true then
        (if digitsValue 0 (body.takeWhile isDigitByte) > 2 ^ (w - 1) then -(2 ^ (w - 1) : Int)
          else -(digitsValue 0 (body.takeWhile isDigitByte) : Int))
      else (if digitsValue 0 (body.takeWhile isDigitByte) ≥ 2 ^ (w - 1) then 2 ^ (w - 1) - 1
          else (digitsValue 0 (body.takeWhile isDigitByte) : Int))) := by
  have hsplit := List.takeWhile_append_dropWhile isDigitByte body
  have hdl : (body.takeWhile isDigitByte).length ≤ body.length := by
    have := congrArg List.length hsplit
    rw [List.length_append] at this
    omega
  have hm : digitsValue 0 (body.takeWhile isDigitByte) < 2 ^ (w - 1) :=
    digitsValue_small w _ (takeWhile_digits body) (by omega)
  have hpow : 2 ^ (w - 1) ≤ 2 ^ w - 1 := by rcases hw with rfl | rfl <;> norm_num
  have hloop : atoiFastLoop w body 0 =
      atoiFastLoop w (body.dropWhile isDigitByte)
        ((digitsValue 0 (body.takeWhile isDigitByte) : Nat) : Int) := by
    conv_lhs => rw [← hsplit]
    exact atoiFastLoop_digits w hw _ _ 0 (takeWhile_digits body) hm
  have hnov : ¬ (digitsValue 0 (body.takeWhile isDigitByte) > 2 ^ w - 1) := by omega
  have hngt : ¬ (digitsValue 0 (body.takeWhile isDigitByte) > 2 ^ (w - 1)) := by omega
  have hnge : ¬ (digitsValue 0 (body.takeWhile isDigitByte) ≥ 2 ^ (w - 1)) := by omega
  rw [if_neg hnov]
  by_cases hs : body.takeWhile isDigitByte = [] ∨ body.dropWhile isDigitByte ≠ []
  · rw [if_pos hs]
    by_cases h1 : sign ∧ body.length < 1
    · rw [if_pos h1]
    · rw [if_neg h1]
      rcases dropWhile_head body with hd | ⟨c', r, hd, hc'⟩
      · exfalso
        rcases hs with hs | hs
        · rw [hs, hd] at hsplit
          have hnil : body = [] := hsplit.symm
          by_cases hsg : sign
          · exact h1 ⟨hsg, by rw [hnil]; simp⟩
          · exact hsign hsg hnil
        · exact hs hd
      · have hc256 : c' < 256 := hb c' (by rw [← hsplit, hd]; simp)
        rw [hloop, hd, atoiFastLoop_nondigit w c' r _ hc256 hc']
  · rw [if_neg hs]
    have hs1 : body.takeWhile isDigitByte ≠ [] := fun h => hs (Or.inl h)
    have hs2 : body.dropWhile isDigitByte = [] := by
      by_contra h; exact hs (Or.inr h)
    have hne : ¬ (sign ∧ body.length < 1) := by
      rintro ⟨_, hl⟩
      have : body = [] := List.length_eq_zero.1 (by omega)
      rw [this] at hs1
      exact hs1 rfl
    rw [if_neg hne, hloop, hs2]
    simp only [atoiFastLoop]
    by_cases hc : c = 45
    · simp only [hc, decide_True, if_true]
      rw [if_neg hngt]
      have hmI : ((digitsValue 0 (body.takeWhile isDigitByte) : Nat) : Int) < 2 ^ (w - 1) := by
        exact_mod_cast hm
      have h0 : (0 : Int) ≤ (digitsValue 0 (body.takeWhile isDigitByte) : Int) :=
        Int.natCast_nonneg _
      exact wrapInt_of_small w hw _ (by linarith) (by linarith)
    · simp only [hc, decide_False, if_false]
      rw [if_neg hnge]
      simp

theorem atoiBytes_closed (w : Nat) (hw : w = 32 ∨ w = 64) (s : List Nat)
    (hb : ∀ x ∈ s, x < 256) : (atoiBytes w s).1 = atoiClosedForm w s := by
  unfold atoiBytes
  simp only
  by_cases hfast : (w = 32 ∧ 0 < s.length ∧ s.length < 10) ∨
      (w = 64 ∧ 0 < s.length ∧ s.length < 19)
  · rw [if_pos hfast]
    cases s with
    | nil => simp at hfast
    | cons c rest =>
      simp only
      unfold atoiClosedForm
      rw [splitSign_cons]
      simp only
      rw [← fast_body_eq]
      have hbl : (if c = 45 ∨ c = 43 then rest else c :: rest).length ≤ (c :: rest).length := by
        split_ifs <;> simp
      exact atoiFast_closed w hw c _ (c = 45 ∨ c = 43)
        (fun x hx => hb x (by
          split_ifs at hx
          · exact List.mem_cons_of_mem _ hx
          · exact hx))
        (fun hsg => by rw [if_neg hsg]; simp)
        (by rcases hfast with ⟨h1, _, h3⟩ | ⟨h1, _, h3⟩
            · exact Or.inl ⟨h1, by omega⟩
            · exact Or.inr ⟨h1, by omega⟩)
  · rw [if_neg hfast]
    exact ParseInt_closed w hw s


theorem utf8Bytes_lt (c : Char) : ∀ x ∈ utf8Bytes c, x < 256 := by
  have hv : c.toNat < 1114112 := by
    have := c.valid
    simp only [Char.toNat]
    unfold UInt32.isValidChar Nat.isValidChar at this
    omega
  intro x hx
  unfold utf8Bytes at hx
  simp only at hx
  split_ifs at hx <;> simp at hx <;> omega

theorem charsBytes_lt (l : List Char) : ∀ x ∈ charsBytes l, x < 256 := by
  induction l with
  | nil => intro x hx; cases hx
  | cons c cs ih =>
    intro x hx
    unfold charsBytes at hx
    rcases List.mem_append.1 hx with h | h
    · exact utf8Bytes_lt c x h
    · exact ih x h

theorem charsBytes_append (a b : List Char) :
    charsBytes (a ++ b) = charsBytes a ++ charsBytes b := by
  induction a with
  | nil => rfl
  | cons c cs ih => simp [charsBytes, ih]

theorem interfaceToInt_closed (p : Platform) (hw : p.IntSize = 32 ∨ p.IntSize = 64) (v : Value) :
    interfaceToInt p v = atoiClosedForm p.IntSize (goBytes (interfaceToString v)) := by
  unfold interfaceToInt Atoi
  exact atoiBytes_closed p.IntSize hw _ (charsBytes_lt _)

theorem utf8Bytes_digitChar (d : Nat) (hd : d < 10) : utf8Bytes (digitChar d) = [48 + d] := by
  interval_cases d <;> rfl

theorem natDigits_bytes (fuel m : Nat) (h : m < fuel) :
    (∀ c ∈ charsBytes (natDigits fuel m), isDigitByte c = true) ∧
    charsBytes (natDigits fuel m) ≠ [] ∧
    digitsValue 0 (charsBytes (natDigits fuel m)) = m := by
  induction fuel generalizing m with
  | zero => omega
  | succ fuel ih =>
    unfold natDigits
    by_cases hm : m < 10
    · rw [if_pos hm]
      simp only [charsBytes, utf8Bytes_digitChar m hm, List.append_nil]
      refine ⟨fun c hc => ?_, by simp, ?_⟩
      · simp only [List.mem_singleton] at hc
        subst hc
        simp [isDigitByte]; omega
      · simp [digitsValue]
    · rw [if_neg hm]
      obtain ⟨h1, h2, h3⟩ := ih (m / 10) (by omega)
      rw [charsBytes_append]
      simp only [charsBytes, utf8Bytes_digitChar (m % 10) (Nat.mod_lt _ (by norm_num)),
        List.append_nil]
      refine ⟨fun c hc => ?_, by simp, ?_⟩
      · rcases List.mem_append.1 hc with hc | hc
        · exact h1 c hc
        · simp only [List.mem_singleton] at hc
          subst hc
          simp [isDigitByte]; omega
      · rw [digitsValue_append, h3]
        simp [digitsValue]
        omega

theorem takeWhile_all_digits (l : List Nat) (h : ∀ c ∈ l, isDigitByte c = true) :
    l.takeWhile isDigitByte = l ∧ l.dropWhile isDigitByte = [] := by
  induction l with
  | nil => exact ⟨rfl, rfl⟩
  | cons c cs ih =>
    have hc := h c (List.mem_cons_self _ _)
    obtain ⟨h1, h2⟩ := ih (fun c' hc' => h c' (List.mem_cons_of_mem _ hc'))
    exact ⟨by rw [List.takeWhile_cons_of_pos hc, h1], by rw [List.dropWhile_cons_of_pos hc, h2]⟩

theorem splitSign_digits (l : List Nat) (h : ∀ c ∈ l, isDigitByte c = true) :
    splitSign l = (false, l) := by
  cases l with
  | nil => rfl
  | cons c cs =>
    have hc : 48 ≤ c ∧ c ≤ 57 := by
      have := h c (List.mem_cons_self _ _)
      simpa [isDigitByte] using this
    have h43 : ¬ (c = 43) := by omega
    have h45 : ¬ (c = 45) := by omega
    rw [splitSign_cons]
    simp [h43, h45]

theorem atoiClosedForm_digits (w : Nat) (l : List Nat) (h : ∀ c ∈ l, isDigitByte c = true)
    (hne : l ≠ []) (hv : digitsValue 0 l < 2 ^ (w - 1)) (hpow : 2 ^ (w - 1) ≤ 2 ^ w - 1) :
    atoiClosedForm w l = (digitsValue 0 l : Int) := by
  unfold atoiClosedForm
  rw [splitSign_digits l h]
  simp only
  rw [(takeWhile_all_digits l h).1, (takeWhile_all_digits l h).2]
  have h1 : ¬ (digitsValue 0 l > 2 ^ w - 1) := by omega
  have h2 : ¬ (l = [] ∨ ([] : List Nat) ≠ []) := by simp [hne]
  have h3 : ¬ (digitsValue 0 l ≥ 2 ^ (w - 1)) := by omega
  rw [if_neg h1, if_neg h2, if_neg h3]
  simp

theorem atoiClosedForm_minus_digits (w : Nat) (l : List Nat)
    (h : ∀ c ∈ l, isDigitByte c = true) (hne : l ≠ []) (hv : digitsValue 0 l ≤ 2 ^ (w - 1))
    (hpow : 2 ^ (w - 1) ≤ 2 ^ w - 1) :
    atoiClosedForm w (45 :: l) = -(digitsValue 0 l : Int) := by
  unfold atoiClosedForm
  have hs : splitSign (45 :: l) = (true, l) := by simp [splitSign]
  rw [hs]
  simp only
  rw [(takeWhile_all_digits l h).1, (takeWhile_all_digits l h).2]
  have h1 : ¬ (digitsValue 0 l > 2 ^ w - 1) := by omega
  have h2 : ¬ (l = [] ∨ ([] : List Nat) ≠ []) := by simp [hne]
  have h3 : ¬ (digitsValue 0 l > 2 ^ (w - 1)) := by omega
  rw [if_neg h1, if_neg h2, if_neg h3]
  simp

theorem interfaceToInt_decimalText_aux (p : Platform) (hw : p.IntSize = 32 ∨ p.IntSize = 64)
    (n : Int) (hn : inIntRange p n) : interfaceToInt p (Value.str (decimalText n)) = n := by
  rw [interfaceToInt_closed p hw]
  obtain ⟨h1, h2, h3⟩ := natDigits_bytes (n.natAbs + 1) n.natAbs (Nat.lt_succ_self _)
  have hpow : 2 ^ (p.IntSize - 1) ≤ 2 ^ p.IntSize - 1 := by
    rcases hw with h | h <;> rw [h] <;> norm_num
  unfold inIntRange at hn
  obtain ⟨hlo, hhi⟩ := hn
  unfold decimalText interfaceToString
  simp only
  by_cases hneg : n < 0
  · rw [if_pos hneg]
    have hb : goBytes (String.mk ('-' :: natDigits (n.natAbs + 1) n.natAbs)) =
        45 :: charsBytes (natDigits (n.natAbs + 1) n.natAbs) := rfl
    rw [hb, atoiClosedForm_minus_digits p.IntSize _ h1 h2 ?_ hpow, h3]
    · omega
    · rw [h3]
      have : ((n.natAbs : Nat) : Int) ≤ 2 ^ (p.IntSize - 1) := by omega
      exact_mod_cast this
  · rw [if_neg hneg]
    have hb : goBytes (String.mk (natDigits (n.natAbs + 1) n.natAbs)) =
        charsBytes (natDigits (n.natAbs + 1) n.natAbs) := rfl
    rw [hb, atoiClosedForm_digits p.IntSize _ h1 h2 ?_ hpow, h3]
    · omega
    · rw [h3]
      have : ((n.natAbs : Nat) : Int) < 2 ^ (p.IntSize - 1) := by omega
      exact_mod_cast this

/-! ## Scalar coercion: integers -/

/-- C1 fails as stated for a digit string too large for `int`: `9223372036854775808` is the
text of no integer in the range of a 64-bit `int` (it is the digit string of `2 ^ 63`), and
`interfaceToInt` of it is `9223372036854775807`, not 0; on a 32-bit platform `2147483648` gives
`2147483647`. -/
theorem interfaceToInt_overflow_not_zero :
    (∀ n : Int, inIntRange platform64 n → decimalText n ≠ "9223372036854775808") ∧
    leadingDigits "9223372036854775808" = goBytes "9223372036854775808" ∧
    afterDigits "9223372036854775808" = [] ∧
    digitsValue 0 (leadingDigits "9223372036854775808") = 2 ^ 63 ∧
    interfaceToInt platform64 (Value.str "9223372036854775808") = 9223372036854775807 ∧
    interfaceToInt platform64 (Value.str "9223372036854775808") ≠ 0 ∧
    (∀ n : Int, inIntRange platform32 n → decimalText n ≠ "2147483648") ∧
    interfaceToInt platform32 (Value.str "2147483648") = 2147483647 := by
  have e64 : interfaceToInt platform64 (Value.str "9223372036854775808")
      = 9223372036854775807 := by rfl
  have e32 : interfaceToInt platform32 (Value.str "2147483648") = 2147483647 := by rfl
  refine ⟨fun n hn h => ?_, by rfl, by rfl, by rfl, e64, by rw [e64]; decide,
    fun n hn h => ?_, e32⟩
  · have hrt := interfaceToInt_decimalText_aux platform64 (Or.inr rfl) n hn
    rw [h, e64] at hrt
    subst hrt
    revert h
    decide
  · have hrt := interfaceToInt_decimalText_aux platform32 (Or.inl rfl) n hn
    rw [h, e32] at hrt
    subst hrt
    revert h
    decide

/-- C1, as the code has it: on a platform whose `int` has 32 or 64 bits, `interfaceToInt` is 0
for every value that is not a string, and for every string that, after one optional leading
`+` or `-`, is empty or has a byte that is not a decimal digit, provided the digits before that
byte do not exceed `2 ^ IntSize - 1` (which is so whenever there are fewer than ten of them).
For a string of digits too large for `int` it is not 0 but the bound of `int`:
`2 ^ (IntSize - 1) - 1`, and `-2 ^ (IntSize - 1)` after a `-`. -/
theorem interfaceToInt_syntax_failure (p : Platform) (hw : p.IntSize = 32 ∨ p.IntSize = 64)
    (v : Value) :
    ((∀ t, v ≠ Value.str t) → interfaceToInt p v = 0) ∧
    (leadingDigits (interfaceToString v) = [] ∨ afterDigits (interfaceToString v) ≠ [] →
      digitsValue 0 (leadingDigits (interfaceToString v)) ≤ 2 ^ p.IntSize - 1 →
      interfaceToInt p v = 0) ∧
    (leadingDigits (interfaceToString v) = [] ∨ afterDigits (interfaceToString v) ≠ [] →
      (leadingDigits (interfaceToString v)).length < 10 →
      interfaceToInt p v = 0) ∧
    (leadingDigits (interfaceToString v) ≠ [] → afterDigits (interfaceToString v) = [] →
      signOf (interfaceToString v) = false →
      2 ^ (p.IntSize - 1) ≤ digitsValue 0 (leadingDigits (interfaceToString v)) →
      interfaceToInt p v = 2 ^ (p.IntSize - 1) - 1) ∧
    (leadingDigits (interfaceToString v) ≠ [] → afterDigits (interfaceToString v) = [] →
      signOf (interfaceToString v) = true →
      2 ^ (p.IntSize - 1) < digitsValue 0 (leadingDigits (interfaceToString v)) →
      interfaceToInt p v = -(2 ^ (p.IntSize - 1))) := by
  have hclosed := interfaceToInt_closed p hw v
  unfold atoiClosedForm at hclosed
  simp only at hclosed
  have hB : leadingDigits (interfaceToString v) = [] ∨ afterDigits (interfaceToString v) ≠ [] →
      digitsValue 0 (leadingDigits (interfaceToString v)) ≤ 2 ^ p.IntSize - 1 →
      interfaceToInt p v = 0 := by
    intro hs hle
    simp only [leadingDigits, afterDigits] at hs hle
    have hnov : ¬ (digitsValue 0
        ((splitSign (goBytes (interfaceToString v))).2.takeWhile isDigitByte)
        > 2 ^ p.IntSize - 1) := by omega
    rw [hclosed, if_neg hnov, if_pos hs]
  refine ⟨fun hv => ?_, hB, fun hs hlen => ?_, fun h1 h2 h3 h4 => ?_, fun h1 h2 h3 h4 => ?_⟩
  · have hstr : interfaceToString v = "" := by
      cases v with
      | str t => exact absurd rfl (hv t)
      | _ => rfl
    exact hB (Or.inl (by rw [hstr]; rfl)) (by rw [hstr]; exact Nat.zero_le _)
  · refine hB hs ?_
    have hd : ∀ c ∈ leadingDigits (interfaceToString v), isDigitByte c = true :=
      fun c hc => List.mem_takeWhile_imp hc
    have hlt := digitsValue_lt_pow 0 _ hd
    rw [Nat.zero_add, Nat.one_mul] at hlt
    have hp : 10 ^ (leadingDigits (interfaceToString v)).length ≤ 10 ^ 9 :=
      Nat.pow_le_pow_right (by norm_num) (by omega)
    rcases hw with h | h <;> rw [h] <;> norm_num at hp ⊢ <;> omega
  · unfold leadingDigits afterDigits signOf at *
    rw [hclosed, h3]
    have hs : ¬ ((splitSign (goBytes (interfaceToString v))).2.takeWhile isDigitByte = [] ∨
        (splitSign (goBytes (interfaceToString v))).2.dropWhile isDigitByte ≠ []) := by
      rintro (h | h)
      · exact h1 h
      · exact h h2
    simp only [Bool.false_eq_true, if_false, if_neg hs]
    rw [if_pos h4]
    split_ifs <;> rfl
  · unfold leadingDigits afterDigits signOf at *
    rw [hclosed, h3]
    have hs : ¬ ((splitSign (goBytes (interfaceToString v))).2.takeWhile isDigitByte = [] ∨
        (splitSign (goBytes (interfaceToString v))).2.dropWhile isDigitByte ≠ []) := by
      rintro (h | h)
      · exact h1 h
      · exact h h2
    simp only [if_true, if_neg hs]
    rw [if_pos h4]
    split_ifs <;> rfl

/-- C1, as the code has it, at concrete inputs on a 64-bit platform: the nil value, a mapping,
the empty string, `-`, `abc` and `12x` give 0; `9223372036854775808` gives
`9223372036854775807` and `-9223372036854775809` gives `-9223372036854775808`. -/
theorem interfaceToInt_syntax_failure_witness :
    interfaceToInt platform64 Value.nil = 0 ∧
    interfaceToInt platform64 (Value.map [("Year", Value.str "2024")]) = 0 ∧
    interfaceToInt platform64 (Value.str "") = 0 ∧
    interfaceToInt platform64 (Value.str "-") = 0 ∧
    interfaceToInt platform64 (Value.str "abc") = 0 ∧
    interfaceToInt platform64 (Value.str "12x") = 0 ∧
    interfaceToInt platform64 (Value.str "9223372036854775808") = 2 ^ (64 - 1) - 1 ∧
    interfaceToInt platform64 (Value.str "-9223372036854775809") = -(2 ^ (64 - 1)) :=
  ⟨(interfaceToInt_syntax_failure platform64 (Or.inr rfl) Value.nil).1 (fun t h => by cases h),
   (interfaceToInt_syntax_failure platform64 (Or.inr rfl) (Value.map [("Year", Value.str "2024")])).1
     (fun t h => by cases h),
   (interfaceToInt_syntax_failure platform64 (Or.inr rfl) (Value.str "")).2.1
     (by decide) (by decide),
   (interfaceToInt_syntax_failure platform64 (Or.inr rfl) (Value.str "-")).2.1
     (by decide) (by decide),
   (interfaceToInt_syntax_failure platform64 (Or.inr rfl) (Value.str "abc")).2.2.1
     (by decide) (by decide),
   (interfaceToInt_syntax_failure platform64 (Or.inr rfl) (Value.str "12x")).2.2.1
     (by decide) (by decide),
   (interfaceToInt_syntax_failure platform64 (Or.inr rfl)
     (Value.str "9223372036854775808")).2.2.2.1 (by decide) (by decide) (by decide) (by decide),
   (interfaceToInt_syntax_failure platform64 (Or.inr rfl)
     (Value.str "-9223372036854775809")).2.2.2.2 (by decide) (by decide) (by decide) (by decide)⟩

/-- C2: on a platform whose `int` has 32 or 64 bits, for every integer `n` in the range of
`int`, `interfaceToInt` of the string holding the base-10 text of `n` (with a leading `-` when
`n` is negative) is `n`. -/
theorem interfaceToInt_decimalText (p : Platform) (hw : p.IntSize = 32 ∨ p.IntSize = 64)
    (n : Int) (hn : inIntRange p n) : interfaceToInt p (Value.str (decimalText n)) = n :=
  interfaceToInt_decimalText_aux p hw n hn

/-- C2 at the two ends of the 64-bit range, at 0 and at the lower end of the 32-bit range. -/
theorem interfaceToInt_decimalText_witness :
    (decimalText (-9223372036854775808) = "-9223372036854775808" ∧
      interfaceToInt platform64 (Value.str (decimalText (-9223372036854775808)))
        = -9223372036854775808) ∧
    (decimalText 9223372036854775807 = "9223372036854775807" ∧
      interfaceToInt platform64 (Value.str (decimalText 9223372036854775807))
        = 9223372036854775807) ∧
    (decimalText 0 = "0" ∧ interfaceToInt platform64 (Value.str (decimalText 0)) = 0) ∧
    (decimalText (-2147483648) = "-2147483648" ∧
      interfaceToInt platform32 (Value.str (decimalText (-2147483648))) = -2147483648) :=
  ⟨⟨by decide,
    interfaceToInt_decimalText platform64 (Or.inr rfl) (-9223372036854775808) (by decide)⟩,
   ⟨by decide, interfaceToInt_decimalText platform64 (Or.inr rfl) 9223372036854775807 (by decide)⟩,
   ⟨by decide, interfaceToInt_decimalText platform64 (Or.inr rfl) 0 (by decide)⟩,
   ⟨by decide, interfaceToInt_decimalText platform32 (Or.inl rfl) (-2147483648) (by decide)⟩⟩

/-! ## Errors and empty documents -/

/-- C11: when the transport call of an operation returns the error `e`, the operation returns
`e` itself together with the zero value of its result type: the zero record for
`GetInformation`, `GetSystemDateAndTime`, `GetCapabilities`, `GetHostname` and `GetDNS`, the
empty string for `GetDiscoveryMode` and the nil list for `GetScopes`.  This holds whatever the
path accessors are and whatever response came with the error: neither is consulted. -/
theorem transport_error_propagated (p : Platform) (c : Collaborators) (device : Device)
    (response : Value) (e : Error) :
    (c.SendRequest (requestOf "<tds:GetDeviceInformation/>" device) device.XAddr
        = (response, some e) →
      GetInformation c device = (DeviceInformation.zero, some e)) ∧
    (c.SendRequest (requestOf "<tds:GetSystemDateAndTime/>" device) device.XAddr
        = (response, some e) →
      GetSystemDateAndTime p c device = (SystemDateAndTime.zero, some e)) ∧
    (c.SendRequest (requestOf capabilitiesBody device) device.XAddr = (response, some e) →
      GetCapabilities p c device = (DeviceCapabilities.zero, some e)) ∧
    (c.SendRequest (requestOf "<tds:GetDiscoveryMode/>" device) device.XAddr
        = (response, some e) →
      GetDiscoveryMode c device = ("", some e)) ∧
    (c.SendRequest (requestOf "<tds:GetScopes/>" device) device.XAddr = (response, some e) →
      GetScopes c device = (none, some e)) ∧
    (c.SendRequest (requestOf "<tds:GetHostname/>" device) device.XAddr = (response, some e) →
      GetHostname p c device = (HostnameInformation.zero, some e)) ∧
    (c.SendRequest (requestOf "<tds:GetDNS/>" device) device.XAddr = (response, some e) →
      GetDNS p c device = (DNSInformation.zero, some e)) := by
  refine ⟨fun h => ?_, fun h => ?_, fun h => ?_, fun h => ?_, fun h => ?_, fun h => ?_,
    fun h => ?_⟩
  · unfold GetInformation; simp only [requestOf] at h; simp only [h]
  · unfold GetSystemDateAndTime; simp only [requestOf] at h; simp only [h]
  · unfold GetCapabilities; simp only [requestOf, capabilitiesBody] at h; simp only [h]
  · unfold GetDiscoveryMode; simp only [requestOf] at h; simp only [h]
  · unfold GetScopes; simp only [requestOf] at h; simp only [h]
  · unfold GetHostname; simp only [requestOf] at h; simp only [h]
  · unfold GetDNS; simp only [requestOf] at h; simp only [h]

/-- C11 with a transport that fails with the error `connection refused`: each of the seven
operations returns that error and its zero value. -/
theorem transport_error_propagated_witness :
    GetInformation (failingCollaborators (Error.Transport "connection refused")) sampleDevice
      = (DeviceInformation.zero, some (Error.Transport "connection refused")) ∧
    GetSystemDateAndTime platform64 (failingCollaborators (Error.Transport "connection refused"))
      sampleDevice = (SystemDateAndTime.zero, some (Error.Transport "connection refused")) ∧
    GetCapabilities platform64 (failingCollaborators (Error.Transport "connection refused"))
      sampleDevice = (DeviceCapabilities.zero, some (Error.Transport "connection refused")) ∧
    GetDiscoveryMode (failingCollaborators (Error.Transport "connection refused")) sampleDevice
      = ("", some (Error.Transport "connection refused")) ∧
    GetScopes (failingCollaborators (Error.Transport "connection refused")) sampleDevice
      = (none, some (Error.Transport "connection refused")) ∧
    GetHostname platform64 (failingCollaborators (Error.Transport "connection refused"))
      sampleDevice = (HostnameInformation.zero, some (Error.Transport "connection refused")) ∧
    GetDNS platform64 (failingCollaborators (Error.Transport "connection refused")) sampleDevice
      = (DNSInformation.zero, some (Error.Transport "connection refused")) :=
  have h := transport_error_propagated platform64
    (failingCollaborators (Error.Transport "connection refused")) sampleDevice Value.nil
    (Error.Transport "connection refused")
  ⟨h.1 rfl, h.2.1 rfl, h.2.2.1 rfl, h.2.2.2.1 rfl, h.2.2.2.2.1 rfl, h.2.2.2.2.2.1 rfl,
    h.2.2.2.2.2.2 rfl⟩

/-- C12: when the transport succeeds and the response container of the operation resolves to
the empty mapping, or to a value that is not a mapping (a scalar, a sequence, the nil value),
each of `GetInformation`, `GetSystemDateAndTime`, `GetHostname` and `GetDNS` returns the zero
value of its record type and no error. -/
theorem empty_document_zero_record (p : Platform) (c : Collaborators) (device : Device)
    (response v : Value) (hv : v = Value.map [] ∨ asMap v = none) :
    (c.SendRequest (requestOf "<tds:GetDeviceInformation/>" device) device.XAddr
        = (response, none) →
      c.ValueForPath response "Envelope.Body.GetDeviceInformationResponse" = (v, none) →
      GetInformation c device = (DeviceInformation.zero, none)) ∧
    (c.SendRequest (requestOf "<tds:GetSystemDateAndTime/>" device) device.XAddr
        = (response, none) →
      c.ValueForPath response "Envelope.Body.GetSystemDateAndTimeResponse.SystemDateAndTime"
        = (v, none) →
      GetSystemDateAndTime p c device = (SystemDateAndTime.zero, none)) ∧
    (c.SendRequest (requestOf "<tds:GetHostname/>" device) device.XAddr = (response, none) →
      c.ValueForPath response "Envelope.Body.GetHostnameResponse.HostnameInformation"
        = (v, none) →
      GetHostname p c device = (HostnameInformation.zero, none)) ∧
    (c.SendRequest (requestOf "<tds:GetDNS/>" device) device.XAddr = (response, none) →
      c.ValueForPath response "Envelope.Body.GetDNSResponse.DNSInformation" = (v, none) →
      GetDNS p c device = (DNSInformation.zero, none)) := by
  refine ⟨fun h1 h2 => ?_, fun h1 h2 => ?_, fun h1 h2 => ?_, fun h1 h2 => ?_⟩
  · unfold GetInformation
    simp only [requestOf] at h1
    simp only [h1, h2]
    rcases hv with rfl | hv
    · rfl
    · simp only [hv]
  · unfold GetSystemDateAndTime
    simp only [requestOf] at h1
    simp only [h1, h2]
    rcases hv with rfl | hv
    · rfl
    · unfold assembleDateAndTime; simp only [hv]
  · unfold GetHostname
    simp only [requestOf] at h1
    simp only [h1, h2]
    rcases hv with rfl | hv
    · rfl
    · simp only [hv]
  · unfold GetDNS
    simp only [requestOf] at h1
    simp only [h1, h2]
    rcases hv with rfl | hv
    · rfl
    · simp only [hv]

/-- C12 on four documents: an empty `GetDeviceInformationResponse`, a `SystemDateAndTime` that
is a scalar, a `HostnameInformation` that is a sequence and an empty `DNSInformation`. -/
theorem empty_document_zero_record_witness :
    GetInformation (docCollaborators (envelope "GetDeviceInformationResponse" (Value.map [])))
      sampleDevice = (DeviceInformation.zero, none) ∧
    GetSystemDateAndTime platform64
      (docCollaborators (envelope "GetSystemDateAndTimeResponse"
        (Value.map [("SystemDateAndTime", Value.str "now")]))) sampleDevice
      = (SystemDateAndTime.zero, none) ∧
    GetHostname platform64
      (docCollaborators (envelope "GetHostnameResponse"
        (Value.map [("HostnameInformation", Value.seq [Value.str "a", Value.str "b"])])))
      sampleDevice = (HostnameInformation.zero, none) ∧
    GetDNS platform64
      (docCollaborators (envelope "GetDNSResponse" (Value.map [("DNSInformation", Value.map [])])))
      sampleDevice = (DNSInformation.zero, none) :=
  ⟨(empty_document_zero_record platform64 _ sampleDevice
      (envelope "GetDeviceInformationResponse" (Value.map [])) (Value.map [])
      (Or.inl rfl)).1 rfl rfl,
   (empty_document_zero_record platform64 _ sampleDevice
      (envelope "GetSystemDateAndTimeResponse"
        (Value.map [("SystemDateAndTime", Value.str "now")])) (Value.str "now")
      (Or.inr rfl)).2.1 rfl rfl,
   (empty_document_zero_record platform64 _ sampleDevice
      (envelope "GetHostnameResponse"
        (Value.map [("HostnameInformation", Value.seq [Value.str "a", Value.str "b"])]))
      (Value.seq [Value.str "a", Value.str "b"]) (Or.inr rfl)).2.2.1 rfl rfl,
   (empty_document_zero_record platform64 _ sampleDevice
      (envelope "GetDNSResponse" (Value.map [("DNSInformation", Value.map [])])) (Value.map [])
      (Or.inl rfl)).2.2.2 rfl rfl⟩

/-! ## Path navigator -/

theorem walkPath_of_resolves (seqRule : List Value → String → Option Value) (d : Value)
    (segments : List String) (v : Value) (h : ResolvesTo d segments v) :
    walkPath seqRule d segments = some v := by
  induction h with
  | done v => rfl
  | step m k rest next v hk _ ih =>
    unfold walkPath
    simp only [descend, hk]
    exact ih

theorem walkPath_of_absent (seqRule : List Value → String → Option Value) (d : Value)
    (segments : List String) (h : SegmentAbsent d segments) :
    walkPath seqRule d segments = none := by
  induction h with
  | here m k rest hk =>
    unfold walkPath
    simp only [descend, hk]
  | later m k rest next hk _ ih =>
    unfold walkPath
    simp only [descend, hk]
    exact ih

/-- C13: in the navigator the specification describes, when the final node of the path is not a
sequence (a single mapping or scalar), `valuesForPath` returns the one-element sequence holding
that node and no error, and when it is a sequence of `N` elements it returns those `N`
elements and no error; the result is a sequence in both cases. -/
theorem valuesForPath_shape (seqRule : List Value → String → Option Value) (doc : Value)
    (path : String) :
    (∀ v, walkPath seqRule doc (pathSegments path) = some v → (∀ xs, v ≠ Value.seq xs) →
      specValuesForPath seqRule doc path = ([v], none) ∧
      (specValuesForPath seqRule doc path).1.length = 1) ∧
    (∀ xs, walkPath seqRule doc (pathSegments path) = some (Value.seq xs) →
      specValuesForPath seqRule doc path = (xs, none) ∧
      (specValuesForPath seqRule doc path).1.length = xs.length) := by
  refine ⟨fun v hv hns => ?_, fun xs hxs => ?_⟩
  · have h : specValuesForPath seqRule doc path = ([v], none) := by
      unfold specValuesForPath
      rw [hv]
      cases v with
      | seq xs => exact absurd rfl (hns xs)
      | _ => rfl
    exact ⟨h, by rw [h]; rfl⟩
  · have h : specValuesForPath seqRule doc path = (xs, none) := by
      unfold specValuesForPath
      rw [hxs]
    exact ⟨h, by rw [h]⟩

/-- C13 on the two scopes documents: the single `Scopes` mapping comes back as a sequence of
length 1, the repeated one as its three elements, and `GetScopes` reads both. -/
theorem valuesForPath_shape_witness :
    (specValuesForPath (fun _ _ => none) oneScopeDoc
      "Envelope.Body.GetScopesResponse.Scopes").1.length = 1 ∧
    (specValuesForPath (fun _ _ => none) threeScopesDoc
      "Envelope.Body.GetScopesResponse.Scopes").1.length = 3 ∧
    GetScopes (docCollaborators oneScopeDoc) sampleDevice
      = (some ["onvif://www.onvif.org/type/video_encoder"], none) :=
  ⟨((valuesForPath_shape (fun _ _ => none) oneScopeDoc
      "Envelope.Body.GetScopesResponse.Scopes").1 _ rfl (fun xs h => by cases h)).2,
   ((valuesForPath_shape (fun _ _ => none) threeScopesDoc
      "Envelope.Body.GetScopesResponse.Scopes").2 _ rfl).2,
   by rfl⟩

/-- C14: in the navigator the specification describes, and whatever its rule for sequences,
when every segment of the path resolves through mappings to an existing key, `valueForPath`
returns the sub-tree reached and no error, and when a segment is absent from the mapping
reached it returns the not-found error. -/
theorem valueForPath_resolves (seqRule : List Value → String → Option Value) (d : Value)
    (path : String) :
    (∀ v, ResolvesTo d (pathSegments path) v → specValueForPath seqRule d path = (v, none)) ∧
    (SegmentAbsent d (pathSegments path) →
      specValueForPath seqRule d path = (Value.nil, some Error.PathNotFound)) := by
  refine ⟨fun v h => ?_, fun h => ?_⟩
  · unfold specValueForPath
    rw [walkPath_of_resolves seqRule d _ v h]
  · unfold specValueForPath
    rw [walkPath_of_absent seqRule d _ h]

/-- C14 on the device information document: the path
`Envelope.Body.GetDeviceInformationResponse` gives the mapping under it, and the path
`Envelope.Body.GetHostnameResponse`, whose last segment is absent, gives the not-found
error, which `GetHostname` passes on (its path has one more segment under the absent one). -/
theorem valueForPath_resolves_witness :
    specValueForPath (fun _ _ => none)
      (envelope "GetDeviceInformationResponse" (Value.map [("Model", Value.str "X1")]))
      "Envelope.Body.GetDeviceInformationResponse"
      = (Value.map [("Model", Value.str "X1")], none) ∧
    specValueForPath (fun _ _ => none)
      (envelope "GetDeviceInformationResponse" (Value.map [("Model", Value.str "X1")]))
      "Envelope.Body.GetHostnameResponse"
      = (Value.nil, some Error.PathNotFound) ∧
    GetHostname platform64
      (docCollaborators
        (envelope "GetDeviceInformationResponse" (Value.map [("Model", Value.str "X1")])))
      sampleDevice = (HostnameInformation.zero, some Error.PathNotFound) :=
  ⟨(valueForPath_resolves (fun _ _ => none)
      (envelope "GetDeviceInformationResponse" (Value.map [("Model", Value.str "X1")]))
      "Envelope.Body.GetDeviceInformationResponse").1 _
      (ResolvesTo.step _ "Envelope" ["Body", "GetDeviceInformationResponse"] _ _ rfl
        (ResolvesTo.step _ "Body" ["GetDeviceInformationResponse"] _ _ rfl
          (ResolvesTo.step _ "GetDeviceInformationResponse" [] _ _ rfl (ResolvesTo.done _)))),
   (valueForPath_resolves (fun _ _ => none)
      (envelope "GetDeviceInformationResponse" (Value.map [("Model", Value.str "X1")]))
      "Envelope.Body.GetHostnameResponse").2
      (SegmentAbsent.later _ "Envelope" ["Body", "GetHostnameResponse"] _ rfl
        (SegmentAbsent.later _ "Body" ["GetHostnameResponse"] _ rfl
          (SegmentAbsent.here _ "GetHostnameResponse" [] rfl))),
   by rfl⟩

/-! ## Event keys, discovery mode and scopes -/

theorem replaceLoop_WS_absent (new : List Char) (lim : Option Nat) (l : List Char)
    (h : ¬ (['W', 'S'] <:+: l)) : replaceLoop ['W', 'S'] new lim 0 l = l := by
  induction l with
  | nil => rfl
  | cons c cs ih =>
    have hpre : ¬ (List.isPrefixOf ['W', 'S'] (c :: cs) = true) := by
      intro hp
      exact h (List.IsPrefix.isInfix (List.isPrefixOf_iff_prefix.1 hp))
    have hcs : ¬ (['W', 'S'] <:+: cs) := by
      intro hi
      exact h (List.IsInfix.trans hi (List.IsSuffix.isInfix (List.suffix_cons c cs)))
    unfold replaceLoop
    rw [if_neg (fun hh => hpre hh.2), ih hcs]

theorem replaceLoop_WS_first (a b : List Char) (h : ¬ (['W', 'S'] <:+: a)) :
    replaceLoop ['W', 'S'] [] (some 1) 0 (a ++ 'W' :: 'S' :: b) = a ++ b := by
  induction a with
  | nil =>
    show replaceLoop ['W', 'S'] [] (some 1) 0 ('W' :: 'S' :: b) = b
    unfold replaceLoop
    simp [List.isPrefixOf]
    unfold replaceLoop
    exact replaceLoop_spent _ _ _
  | cons c a' ih =>
    have hpre : ¬ (List.isPrefixOf ['W', 'S'] (c :: (a' ++ 'W' :: 'S' :: b)) = true) := by
      intro hp
      cases a' with
      | nil => simp [List.isPrefixOf] at hp
      | cons c' a'' =>
        simp only [List.cons_append, List.isPrefixOf, Bool.and_eq_true, beq_iff_eq] at hp
        apply h
        rw [← hp.1, ← hp.2.1]
        exact List.IsPrefix.isInfix ⟨a'', rfl⟩
    have ha' : ¬ (['W', 'S'] <:+: a') := by
      intro hi
      exact h (List.IsInfix.trans hi (List.IsSuffix.isInfix (List.suffix_cons c a')))
    rw [List.cons_append]
    unfold replaceLoop
    rw [if_neg (fun hh => hpre hh.2), ih ha']
    rfl

theorem Replace_WS_unfold (k : String) :
    Replace k "WS" "" 1 = String.mk (replaceLoop ['W', 'S'] [] (some 1) 0 k.data) := by
  unfold Replace
  have h1 : ¬ (("WS" : String) = "" ∨ (1 : Int) = 0) := by decide
  have h2 : ¬ (("WS" : String).data = []) := by decide
  rw [if_neg h1]
  simp only [h2, if_false]
  have h3 : (if (1 : Int) < 0 then (none : Option Nat) else some (Int.toNat 1)) = some 1 := by
    decide
  rw [h3]

theorem ToLower_ne_xaddr_of_W (p : Platform) (s : String) (h : 'W' ∈ s.data) :
    ToLower p s ≠ "xaddr" := by
  intro heq
  have hdata := congrArg String.data heq
  unfold ToLower at hdata
  simp only at hdata
  split_ifs at hdata with h1 h2
  · rw [hdata] at h
    simp at h
  · have hw : asciiToLower 'W' ∈ s.data.map asciiToLower := List.mem_map_of_mem _ h
    have hd : s.data.map asciiToLower = ['x', 'a', 'd', 'd', 'r'] := hdata
    rw [hd] at hw
    revert hw
    decide
  · have hw : runeToLower p 'W' ∈ s.data.map (runeToLower p) := List.mem_map_of_mem _ h
    have hd : s.data.map (runeToLower p) = ['x', 'a', 'd', 'd', 'r'] := hdata
    rw [hd] at hw
    have : runeToLower p 'W' = 'w' := rfl
    rw [this] at hw
    revert hw
    decide

/-- C15 fails as stated: the key `AWSB` does not begin with `WS` and does not lower-case to
`xaddr`, and its output key is `AB`, not `AWSB`: the first `WS` is removed wherever it is. -/
theorem eventsCap_inner_WS_removed :
    ¬ (("WS" : String).data <+: ("AWSB" : String).data) ∧
    ToLower platform64 "AWSB" ≠ "xaddr" ∧
    Replace "AWSB" "WS" "" 1 = "AB" ∧
    readEventsCap platform64 (Value.map [("AWSB", Value.str "true")]) = [("AB", true)] ∧
    mapGet (readEventsCap platform64 (Value.map [("AWSB", Value.str "true")])) "AWSB" = none := by
  refine ⟨by decide, by decide, by rfl, by rfl, by rfl⟩

/-- C15, as the code has it: in the events loop of `GetCapabilities`, a key that does not
lower-case to `xaddr` and contains no `WS` at all is written unchanged, with
`interfaceToBool` of its value; a key that contains `WS`, at its start or further on, is
written without its first `WS`. -/
theorem eventsCap_first_WS_only (p : Platform) :
    (∀ acc k v, ToLower p k ≠ "xaddr" → ¬ (("WS" : String).data <:+: k.data) →
      eventsStep p acc (k, v) = mapSet acc k (interfaceToBool p v)) ∧
    (∀ acc (a b : String) v, ¬ (("WS" : String).data <:+: a.data) →
      eventsStep p acc (a ++ "WS" ++ b, v) = mapSet acc (a ++ b) (interfaceToBool p v)) ∧
    (∀ k v, ToLower p k ≠ "xaddr" → ¬ (("WS" : String).data <:+: k.data) →
      readEventsCap p (Value.map [(k, v)]) = [(k, interfaceToBool p v)]) := by
  have hstep : ∀ acc k v, ToLower p k ≠ "xaddr" → ¬ (("WS" : String).data <:+: k.data) →
      eventsStep p acc (k, v) = mapSet acc k (interfaceToBool p v) := by
    intro acc k v hx hk
    unfold eventsStep
    rw [if_neg hx, Replace_WS_unfold, replaceLoop_WS_absent _ _ _ hk]
  refine ⟨hstep, fun acc a b v ha => ?_, fun k v hx hk => ?_⟩
  · have hmem : 'W' ∈ (a ++ "WS" ++ b).data := by
      simp [String.data_append]
    have hdata : (a ++ "WS" ++ b).data = a.data ++ 'W' :: 'S' :: b.data := by
      simp [String.data_append]
    unfold eventsStep
    rw [if_neg (ToLower_ne_xaddr_of_W p _ hmem), Replace_WS_unfold]
    simp only [hdata]
    rw [replaceLoop_WS_first a.data b.data ha]
    rfl
  · unfold readEventsCap
    simp only [asMap, List.foldl]
    rw [hstep [] k v hx hk]
    rfl

/-- C15, as the code has it, on the keys `PullPointSupport` (no `WS`: unchanged) and `AWSB`
(written as `AB`). -/
theorem eventsCap_first_WS_only_witness :
    readEventsCap platform64 (Value.map [("PullPointSupport", Value.str "true")])
      = [("PullPointSupport", true)] ∧
    eventsStep platform64 [] ("AWSB", Value.str "true") = [("AB", true)] :=
  ⟨(eventsCap_first_WS_only platform64).2.2 "PullPointSupport" (Value.str "true")
      (by decide) (by decide),
   (eventsCap_first_WS_only platform64).2.1 [] "A" "B" (Value.str "true") (by decide)⟩

/-- C17: after a successful transport `GetDiscoveryMode` returns no error and the string that
`ValueForPathString` produced for `Envelope.Body.GetDiscoveryModeResponse.DiscoveryMode`,
also when `ValueForPathString` returned an error with it.  With the navigator the
specification describes that string is the empty string when the path is absent. -/
theorem getDiscoveryMode_no_path_error (c : Collaborators) (device : Device) (response : Value)
    (hsend : c.SendRequest (requestOf "<tds:GetDiscoveryMode/>" device) device.XAddr
      = (response, none)) :
    GetDiscoveryMode c device =
      ((c.ValueForPathString response
        "Envelope.Body.GetDiscoveryModeResponse.DiscoveryMode").1, none) ∧
    (∀ s e, c.ValueForPathString response
        "Envelope.Body.GetDiscoveryModeResponse.DiscoveryMode" = (s, some e) →
      GetDiscoveryMode c device = (s, none)) ∧
    (∀ seqRule, c.ValueForPathString = specValueForPathString seqRule →
      walkPath seqRule response
        (pathSegments "Envelope.Body.GetDiscoveryModeResponse.DiscoveryMode") = none →
      GetDiscoveryMode c device = ("", none)) := by
  have hrun : GetDiscoveryMode c device =
      ((c.ValueForPathString response
        "Envelope.Body.GetDiscoveryModeResponse.DiscoveryMode").1, none) := by
    unfold GetDiscoveryMode
    simp only [requestOf] at hsend
    simp only [hsend]
  refine ⟨hrun, fun s e h => ?_, fun seqRule hc hw => ?_⟩
  · rw [hrun, h]
  · rw [hrun, hc]
    unfold specValueForPathString specValueForPath
    rw [hw]

/-- C17 on three runs: a document with the discovery mode, a document without it, and the
latter with a `ValueForPathString` that reports the not-found error. -/
theorem getDiscoveryMode_no_path_error_witness :
    GetDiscoveryMode
      (docCollaborators (envelope "GetDiscoveryModeResponse"
        (Value.map [("DiscoveryMode", Value.str "Discoverable")]))) sampleDevice
      = ("Discoverable", none) ∧
    GetDiscoveryMode (docCollaborators (envelope "GetDiscoveryModeResponse" (Value.map [])))
      sampleDevice = ("", none) ∧
    (strictStringCollaborators (envelope "GetDiscoveryModeResponse" (Value.map []))).ValueForPathString
      (envelope "GetDiscoveryModeResponse" (Value.map []))
      "Envelope.Body.GetDiscoveryModeResponse.DiscoveryMode" = ("", some Error.PathNotFound) ∧
    GetDiscoveryMode
      (strictStringCollaborators (envelope "GetDiscoveryModeResponse" (Value.map [])))
      sampleDevice = ("", none) :=
  ⟨(getDiscoveryMode_no_path_error _ sampleDevice
      (envelope "GetDiscoveryModeResponse"
        (Value.map [("DiscoveryMode", Value.str "Discoverable")])) rfl).1,
   (getDiscoveryMode_no_path_error _ sampleDevice
      (envelope "GetDiscoveryModeResponse" (Value.map [])) rfl).2.2 (fun _ _ => none) rfl rfl,
   by rfl,
   (getDiscoveryMode_no_path_error
      (strictStringCollaborators (envelope "GetDiscoveryModeResponse" (Value.map [])))
      sampleDevice (envelope "GetDiscoveryModeResponse" (Value.map [])) rfl).2.1
      "" Error.PathNotFound rfl⟩

theorem collectScopes_eq (scopes : List String) (xs : List Value) :
    collectScopes scopes xs = scopes ++ xs.filterMap scopeItemOf := by
  induction xs generalizing scopes with
  | nil => simp [collectScopes]
  | cons v rest ih =>
    unfold collectScopes
    cases hv : asMap v with
    | none => simp [ih, List.filterMap_cons, scopeItemOf, hv]
    | some m => simp [ih, List.filterMap_cons, scopeItemOf, hv]

theorem filterMap_scopeItemOf_length (xs : List Value) :
    (xs.filterMap scopeItemOf).length = (xs.filter (fun v => (asMap v).isSome)).length := by
  induction xs with
  | nil => rfl
  | cons v rest ih =>
    cases hv : asMap v with
    | none => simp [List.filterMap_cons, List.filter_cons, scopeItemOf, hv, ih]
    | some m => simp [List.filterMap_cons, List.filter_cons, scopeItemOf, hv, ih]

/-- C18: after a successful transport, when `ValuesForPath` returns the sequence `xs` for
`Envelope.Body.GetScopesResponse.Scopes`, `GetScopes` returns no error and the list, in the
order of `xs`, of `interfaceToString` of the `ScopeItem` of the elements of `xs` that are
mappings.  Its length is the number of mapping elements, and it is the empty list, not the nil
one, when `xs` has no mapping element. -/
theorem getScopes_filters_in_order (c : Collaborators) (device : Device) (response : Value)
    (xs : List Value)
    (hsend : c.SendRequest (requestOf "<tds:GetScopes/>" device) device.XAddr = (response, none))
    (hpath : c.ValuesForPath response "Envelope.Body.GetScopesResponse.Scopes" = (xs, none)) :
    GetScopes c device = (some (xs.filterMap scopeItemOf), none) ∧
    (xs.filterMap scopeItemOf).length = (xs.filter (fun v => (asMap v).isSome)).length ∧
    (∀ m, scopeItemOf (Value.map m) = some (interfaceToString (mapIndex m "ScopeItem"))) ∧
    (∀ v, asMap v = none → scopeItemOf v = none) ∧
    ((∀ v ∈ xs, asMap v = none) → GetScopes c device = (some [], none)) := by
  have hrun : GetScopes c device = (some (xs.filterMap scopeItemOf), none) := by
    unfold GetScopes
    simp only [requestOf] at hsend
    simp only [hsend, hpath, collectScopes_eq, List.nil_append]
  refine ⟨hrun, filterMap_scopeItemOf_length xs, fun m => rfl, fun v hv => ?_, fun hall => ?_⟩
  · simp [scopeItemOf, hv]
  · rw [hrun]
    have : xs.filterMap scopeItemOf = [] := by
      rw [List.filterMap_eq_nil_iff]
      intro v hv
      simp [scopeItemOf, hall v hv]
    rw [this]

/-- C18 on the scopes document with three elements, the second a bare scalar: the two scopes of
the mappings come back in order; and on a document whose `Scopes` is a scalar: the empty
list. -/
theorem getScopes_filters_in_order_witness :
    GetScopes (docCollaborators threeScopesDoc) sampleDevice
      = (some ["onvif://www.onvif.org/type/video_encoder", "onvif://www.onvif.org/name/Camera"],
         none) ∧
    GetScopes
      (docCollaborators (envelope "GetScopesResponse" (Value.map [("Scopes", Value.str "x")])))
      sampleDevice = (some [], none) :=
  ⟨(getScopes_filters_in_order _ sampleDevice threeScopesDoc threeScopes rfl rfl).1,
   (getScopes_filters_in_order _ sampleDevice
      (envelope "GetScopesResponse" (Value.map [("Scopes", Value.str "x")]))
      [Value.str "x"] rfl rfl).2.2.2.2 (by
        intro v hv
        simp only [List.mem_singleton] at hv
        subst hv
        rfl)⟩

/-! ## Date and time -/

theorem mapSet_append_new {β : Type} (acc : List (String × β)) (k : String) (v : β)
    (h : k ∉ acc.map Prod.fst) : mapSet acc k v = acc ++ [(k, v)] := by
  induction acc with
  | nil => rfl
  | cons e rest ih =>
    obtain ⟨k', v'⟩ := e
    simp only [List.map_cons, List.mem_cons, not_or] at h
    unfold mapSet
    rw [if_neg (fun hk => h.1 hk.symm), ih h.2]
    rfl

theorem writeEntries_eq_filterMap {α β : Type} (f : α → Option (String × β)) (l : List α)
    (acc : List (String × β)) (h : ((acc ++ l.filterMap f).map Prod.fst).Nodup) :
    writeEntries f acc l = acc ++ l.filterMap f := by
  induction l generalizing acc with
  | nil => simp [writeEntries]
  | cons kv rest ih =>
    rw [writeEntries_cons]
    cases hf : f kv with
    | none =>
      rw [List.filterMap_cons_none hf] at h ⊢
      exact ih acc h
    | some e =>
      rw [List.filterMap_cons_some hf] at h ⊢
      have hnew : e.1 ∉ acc.map Prod.fst := by
        rw [List.map_append, List.nodup_append] at h
        intro hmem
        exact h.2.2 hmem (by simp)
      simp only
      rw [mapSet_append_new acc e.1 e.2 hnew]
      have h' : (((acc ++ [(e.1, e.2)]) ++ rest.filterMap f).map Prod.fst).Nodup := by
        simpa using h
      rw [ih _ h']
      simp

theorem eventsEntry_keys_nodup (p : Platform) (m : List (String × Value))
    (hnd : (m.map Prod.fst).Nodup)
    (hinj : ∀ kv ∈ m, ∀ kv' ∈ m, ToLower p kv.1 ≠ "xaddr" → ToLower p kv'.1 ≠ "xaddr" →
      Replace kv.1 "WS" "" 1 = Replace kv'.1 "WS" "" 1 → kv.1 = kv'.1) :
    ((m.filterMap (eventsEntry p)).map Prod.fst).Nodup := by
  induction m with
  | nil => simp
  | cons kv rest ih =>
    simp only [List.map_cons, List.nodup_cons] at hnd
    have ihr := ih hnd.2 (fun a ha b hb =>
      hinj a (List.mem_cons_of_mem _ ha) b (List.mem_cons_of_mem _ hb))
    by_cases hx : ToLower p kv.1 = "xaddr"
    · have hf : eventsEntry p kv = none := by unfold eventsEntry; rw [if_pos hx]
      rw [List.filterMap_cons_none hf]
      exact ihr
    · have hf : eventsEntry p kv = some (Replace kv.1 "WS" "" 1, interfaceToBool p kv.2) := by
        unfold eventsEntry; rw [if_neg hx]
      rw [List.filterMap_cons_some hf, List.map_cons, List.nodup_cons]
      refine ⟨?_, ihr⟩
      intro hmem
      obtain ⟨e, he, hek⟩ := List.mem_map.1 hmem
      obtain ⟨kv', hkv', hf'⟩ := List.mem_filterMap.1 he
      unfold eventsEntry at hf'
      split_ifs at hf' with hx'
      simp only [Option.some.injEq] at hf'
      have hk : Replace kv.1 "WS" "" 1 = Replace kv'.1 "WS" "" 1 := by
        have h1 : e.1 = Replace kv.1 "WS" "" 1 := hek
        rw [← h1, ← hf']
      have := hinj kv (List.mem_cons_self _ _) kv' (List.mem_cons_of_mem _ hkv') hx hx' hk
      exact hnd.1 (this ▸ List.mem_map_of_mem Prod.fst hkv')

theorem mapGet_perm {β : Type} (l l' : List (String × β)) (hp : l.Perm l')
    (hnd : (l.map Prod.fst).Nodup) (k : String) : mapGet l k = mapGet l' k := by
  induction hp with
  | nil => rfl
  | cons x _ ih =>
    obtain ⟨k0, v0⟩ := x
    simp only [List.map_cons, List.nodup_cons] at hnd
    unfold mapGet
    rw [ih hnd.2]
  | swap x y l =>
    obtain ⟨kx, vx⟩ := x
    obtain ⟨ky, vy⟩ := y
    simp only [List.map_cons, List.nodup_cons, List.mem_cons, not_or] at hnd
    simp only [mapGet]
    by_cases h1 : ky = k
    · by_cases h2 : kx = k
      · exact absurd (h1.trans h2.symm) hnd.1.1
      · simp [h1, h2]
    · by_cases h2 : kx = k
      · simp [h1, h2]
      · simp [h1, h2]
  | trans h1 _ ih1 ih2 =>
    rw [ih1 hnd]
    exact ih2 ((List.Perm.nodup_iff (List.Perm.map Prod.fst h1)).1 hnd)

theorem filterMap_eventsEntry_length (p : Platform) (m : List (String × Value)) :
    (m.filterMap (eventsEntry p)).length =
      (m.filter (fun kv => decide (ToLower p kv.1 ≠ "xaddr"))).length := by
  induction m with
  | nil => rfl
  | cons kv rest ih =>
    by_cases hx : ToLower p kv.1 = "xaddr"
    · have hf : eventsEntry p kv = none := by unfold eventsEntry; rw [if_pos hx]
      rw [List.filterMap_cons_none hf, List.filter_cons_of_neg (by simpa using hx)]
      exact ih
    · have hf : eventsEntry p kv = some (Replace kv.1 "WS" "" 1, interfaceToBool p kv.2) := by
        unfold eventsEntry; rw [if_neg hx]
      rw [List.filterMap_cons_some hf, List.filter_cons_of_pos (by simpa using hx)]
      simp [ih]

/-- C19: let `m` be an events mapping (a Go map, its keys distinct) in which no two keys that do
not lower-case to `xaddr` are turned into the same output key, and let `m'` be the same
mapping traversed in another order.  Then the two output maps are equal: they give the same
value at every key, and hold the same entries.  The output has exactly one entry for each key of
`m` that does not lower-case to `xaddr`: as many entries as such keys, pairwise distinct
output keys, and at the output key of each such key `interfaceToBool` of its value. -/
theorem eventsCap_order_independent (p : Platform) (m m' : List (String × Value))
    (hnd : (m.map Prod.fst).Nodup) (hperm : m.Perm m')
    (hinj : ∀ kv ∈ m, ∀ kv' ∈ m, ToLower p kv.1 ≠ "xaddr" → ToLower p kv'.1 ≠ "xaddr" →
      Replace kv.1 "WS" "" 1 = Replace kv'.1 "WS" "" 1 → kv.1 = kv'.1) :
    (∀ key, mapGet (readEventsCap p (Value.map m)) key
      = mapGet (readEventsCap p (Value.map m')) key) ∧
    (readEventsCap p (Value.map m)).Perm (readEventsCap p (Value.map m')) ∧
    (readEventsCap p (Value.map m)).length
      = (m.filter (fun kv => decide (ToLower p kv.1 ≠ "xaddr"))).length ∧
    ((readEventsCap p (Value.map m)).map Prod.fst).Nodup ∧
    (∀ kv ∈ m, ToLower p kv.1 ≠ "xaddr" →
      mapGet (readEventsCap p (Value.map m)) (Replace kv.1 "WS" "" 1)
        = some (interfaceToBool p kv.2)) := by
  have hnd' : (m'.map Prod.fst).Nodup :=
    (List.Perm.nodup_iff (List.Perm.map Prod.fst hperm)).1 hnd
  have hinj' : ∀ kv ∈ m', ∀ kv' ∈ m', ToLower p kv.1 ≠ "xaddr" → ToLower p kv'.1 ≠ "xaddr" →
      Replace kv.1 "WS" "" 1 = Replace kv'.1 "WS" "" 1 → kv.1 = kv'.1 :=
    fun a ha b hb => hinj a (hperm.mem_iff.2 ha) b (hperm.mem_iff.2 hb)
  have hk := eventsEntry_keys_nodup p m hnd hinj
  have hk' := eventsEntry_keys_nodup p m' hnd' hinj'
  have hout : readEventsCap p (Value.map m) = m.filterMap (eventsEntry p) := by
    rw [readEventsCap_eq, writeEntries_eq_filterMap _ m [] (by simpa using hk)]
    simp
  have hout' : readEventsCap p (Value.map m') = m'.filterMap (eventsEntry p) := by
    rw [readEventsCap_eq, writeEntries_eq_filterMap _ m' [] (by simpa using hk')]
    simp
  have hpo : (m.filterMap (eventsEntry p)).Perm (m'.filterMap (eventsEntry p)) :=
    List.Perm.filterMap _ hperm
  refine ⟨fun key => ?_, ?_, ?_, ?_, fun kv hkv hx => ?_⟩
  · rw [hout, hout']
    exact mapGet_perm _ _ hpo hk key
  · rw [hout, hout']; exact hpo
  · rw [hout]; exact filterMap_eventsEntry_length p m
  · rw [hout]; exact hk
  · rw [readEventsCap_eq]
    have hentry : eventsEntry p kv
        = some (Replace kv.1 "WS" "" 1, interfaceToBool p kv.2) := by
      unfold eventsEntry; rw [if_neg hx]
    refine writeEntries_agree _ _ _ m [] ⟨kv, hkv, _, hentry⟩ ?_
    intro kv' hkv' b' hb'
    unfold eventsEntry at hb'
    split_ifs at hb' with hx'
    simp only [Option.some.injEq, Prod.mk.injEq] at hb'
    have hkk : kv'.1 = kv.1 := hinj kv' hkv' kv hkv hx' hx hb'.1
    have hv : kv'.2 = kv.2 :=
      value_unique_of_nodup_keys m hnd kv.1 kv'.2 kv.2
        (by rw [← hkk]; exact hkv') hkv
    rw [← hb'.2, hv]

/-- C19 on `eventsSample` and `eventsSampleSwapped`: both orders give the two entries
`PullPointSupport: true` and `SubscriptionPolicySupport: false`. -/
theorem eventsCap_order_independent_witness :
    (∀ key, mapGet (readEventsCap platform64 (Value.map eventsSample)) key
      = mapGet (readEventsCap platform64 (Value.map eventsSampleSwapped)) key) ∧
    (readEventsCap platform64 (Value.map eventsSample)).length = 2 ∧
    readEventsCap platform64 (Value.map eventsSample)
      = [("PullPointSupport", true), ("SubscriptionPolicySupport", false)] ∧
    readEventsCap platform64 (Value.map eventsSampleSwapped)
      = [("PullPointSupport", true), ("SubscriptionPolicySupport", false)] :=
  have h := eventsCap_order_independent platform64 eventsSample eventsSampleSwapped
    (by decide) (List.Perm.swap _ _ _)
    (by
      intro kv hkv kv' hkv' hx hx' hr
      simp only [eventsSample, List.mem_cons, List.mem_singleton, List.not_mem_nil,
        or_false] at hkv hkv'
      rcases hkv with rfl | rfl | rfl <;> rcases hkv' with rfl | rfl | rfl <;>
        first
          | rfl
          | exact absurd rfl hx
          | exact absurd rfl hx'
          | (revert hr; decide))
  ⟨h.1, h.2.2.1, by rfl, by rfl⟩

end Onvif
